import Mathlib

/-!
# Club-website backend (`server.js`): a shallow embedding

The Express handlers of `src/server.js` are embedded as pure functions from
the persisted collections, the set of open notification streams and a request
to the new collections, the reply and the effects performed (broadcast calls,
frames written to streams, mails handed to the transport).

Values that come out of a JSON request body are JavaScript values (`JVal`);
the JavaScript coercions the handlers rely on (`!x`, `String(x)`, `x || ''`,
`x.toLowerCase()`) are embedded on them, with the `TypeError` they raise on
values they cannot convert.  Library functions whose text is not part of the
repository (`sha256`, `String.prototype.toLowerCase`, `Number` on a route
parameter, `Number.prototype.toString`, `JSON.stringify`,
`Date.prototype.toISOString`) are fields of the host environment `Env`.
-/

set_option autoImplicit false

namespace Server

/-! ## JavaScript values -/

/-- A JavaScript value as found in a request body, plus `undefined` for an
absent field.  `num n` is an integer-valued number.  `obj proto kvs` is an
object with the own properties `kvs`; `proto` tells whether it inherits from
`Object.prototype`, as every object made by `JSON.parse` does (an object
without prototype has no `toString` to inherit). -/
inductive JVal where
  | undefined
  | null
  | bool (b : Bool)
  | num (n : Int)
  | str (s : String)
  | arr (xs : List JVal)
  | obj (proto : Bool) (kvs : List (String × JVal))

namespace JVal

/-- JavaScript truthiness (`ToBoolean`): `undefined`, `null`, `false`, `0`
and `''` are falsy, every array and object is truthy. -/
def truthy : JVal → Bool
  | undefined => false
  | null => false
  | bool b => b
  | num n => n != 0
  | str s => s != ""
  | arr _ => true
  | obj _ _ => true

/-- `String(o)` for an object: it inherits `Object.prototype.toString` and
renders as `[object Object]`, unless it has no prototype or carries an own
property `toString` (whose value, coming from a request body, is not
callable), in which case the conversion finds no usable method and throws a
`TypeError`. -/
def objectText (proto : Bool) (kvs : List (String × JVal)) : Except String String :=
  if proto && !kvs.any (fun kv => kv.1 == "toString") then .ok "[object Object]"
  else .error "TypeError"

mutual
/-- `String(v)` (`ToString`), also what a template literal and `' ' + v`
make of `v`: an array renders as its elements joined by commas; the
conversion of an object may throw (see `objectText`).  `numText` is
`Number.prototype.toString`. -/
def toStr (numText : Int → String) : JVal → Except String String
  | undefined => .ok "undefined"
  | null => .ok "null"
  | bool true => .ok "true"
  | bool false => .ok "false"
  | num n => .ok (numText n)
  | str s => .ok s
  | arr xs => joinElems numText xs
  | obj proto kvs => objectText proto kvs
/-- `Array.prototype.join(',')`: `null` and `undefined` elements render as
the empty string, the others by `String`. -/
def joinElems (numText : Int → String) : List JVal → Except String String
  | [] => .ok ""
  | [x] => elemStr numText x
  | x :: y :: rest =>
    match elemStr numText x with
    | .error e => .error e
    | .ok a =>
      match joinElems numText (y :: rest) with
      | .error e => .error e
      | .ok b => .ok (a ++ "," ++ b)
/-- One element of a joined array. -/
def elemStr (numText : Int → String) : JVal → Except String String
  | undefined => .ok ""
  | null => .ok ""
  | bool true => .ok "true"
  | bool false => .ok "false"
  | num n => .ok (numText n)
  | str s => .ok s
  | arr xs => joinElems numText xs
  | obj proto kvs => objectText proto kvs
end

/-- The expression `v || ''`. -/
def orEmpty (v : JVal) : JVal := if v.truthy then v else str ""

/-- The test `v === 'lit'` against a string literal. -/
def isStr (v : JVal) (lit : String) : Bool :=
  match v with
  | str s => s == lit
  | _ => false

end JVal

/-! ## Host environment -/

/-- Outcome of handing a message to `mailTransport.sendMail`: the returned
promise resolves, the returned promise rejects, or the call itself throws. -/
inductive MailResult where
  | resolves
  | rejects
  | throws
  deriving DecidableEq, Repr

/-- The six bytes returned by `crypto.randomBytes(6)` (each used modulo 256). -/
structure Bytes6 where
  b0 : Nat
  b1 : Nat
  b2 : Nat
  b3 : Nat
  b4 : Nat
  b5 : Nat
  deriving DecidableEq, Repr

/-- What a handler reads from the outside world while it runs. -/
structure Ctx where
  /-- `Date.now()` as read by `jwt.verify` in `authMiddleware`. -/
  verifyNow : Nat
  /-- `Date.now()` as read by the route handler (and by `jwt.sign`). -/
  now : Nat
  /-- The instant of `new Date()` in the achievements handler. -/
  dateNow : Nat
  /-- The bytes of `crypto.randomBytes(6)`. -/
  rand : Bytes6
  /-- How `mailTransport.sendMail` behaves for this request. -/
  mail : MailResult

/-! ## Data model -/

/-- One entry of `users.json`.  `password` is present exactly when the entry
has an own property `password`. -/
structure User where
  email : JVal
  role : String
  password : Option String := none
  name : Option JVal := none

/-- The parsed `users.json`. -/
structure Users where
  members : List User
  bearers : List User

/-- An entry of an event's `photos`. -/
structure Photo where
  name : String
  url : String

/-- An entry of `events.json`. -/
structure Event where
  id : Nat
  title : JVal
  date : JVal
  venue : JVal
  photos : List Photo
  createdBy : JVal

/-- An entry of `team.json`; `id` is the `Date.now()` of its creation. -/
structure TeamMember where
  id : Nat
  name : JVal
  position : JVal
  department : JVal
  email : JVal

/-- An entry of `achievements.json`. -/
structure Achievement where
  id : Nat
  title : JVal
  description : JVal
  link : JVal
  imageUrl : String
  createdBy : JVal
  createdAt : String

/-- The four persisted collections. -/
structure Store where
  users : Users
  events : List Event
  team : List TeamMember
  achievements : List Achievement

/-- The second argument of `broadcast`; `removedId` carries the number
`Number(req.params.id)` (`none` for a value that is not an integer). -/
inductive Payload where
  | event (ev : Event)
  | member (m : TeamMember)
  | removedId (id : Option Int)
  | achievement (a : Achievement)

/-- Library functions and configuration the handlers use but the repository
does not define. -/
structure Env where
  /-- `crypto.createHash('sha256').update(s).digest('hex')`. -/
  sha256hex : String → String
  /-- `String.prototype.toLowerCase`. -/
  toLowerCase : String → String
  /-- `Number(s)` for a route parameter: `some n` when the result is the
  integer `n`, `none` when it is `NaN`, infinite or fractional (no such number
  is strictly equal to a stored `Date.now()` id). -/
  toNumber : String → Option Int
  /-- `Number.prototype.toString` of an integer-valued number (its decimal
  digits up to `2^53`, the shortest digits that read back as the same double
  from there on). -/
  numberText : Int → String
  /-- `JSON.stringify` of a broadcast payload. -/
  stringify : Payload → String
  /-- `Date.prototype.toISOString` of an instant. -/
  isoString : Nat → String
  /-- `BASE_URL`. -/
  baseUrl : String
  /-- `UPLOADS_DIR`. -/
  uploadsDir : String
  /-- `process.env.MAIL_FROM || 'ieee-sb@localhost'`. -/
  mailFrom : String
  /-- `JWT_SECRET`. -/
  jwtSecret : String

/-! ## Credentials (`jsonwebtoken`, symbolically) -/

/-- The payload of a credential: what `signToken` signs plus the `iat` and
`exp` claims (in seconds) that `jwt.sign` adds for `expiresIn: '7d'`. -/
structure Claims where
  email : JVal
  role : String
  iat : Nat
  exp : Nat

/-- A well-formed signed token: its payload and the key it was signed with
(the signature is valid for a secret exactly when the key is that secret). -/
structure Jwt where
  claims : Claims
  key : String

/-- A token string as presented by a client: a well-formed signed token, or
any other text (which `jwt.verify` rejects as malformed). -/
inductive Wire where
  | jwt (t : Jwt)
  | text (s : String)

/-- Truthiness of a token string: only the empty text is falsy. -/
def Wire.truthy : Wire → Bool
  | .jwt _ => true
  | .text s => s != ""

/-- Seconds in `'7d'`. -/
def sevenDays : Nat := 7 * 24 * 60 * 60

/-- `jwt.sign(payload, key, { expiresIn: '7d' })` at instant `now` (ms). -/
def jwtSign (email : JVal) (role : String) (key : String) (now : Nat) : Jwt :=
  { claims := { email := email, role := role, iat := now / 1000, exp := now / 1000 + sevenDays },
    key := key }

/-- `jwt.verify(token, secret)` at instant `now` (ms): `none` when it throws
(malformed token, bad signature, or `floor(now/1000) >= exp`). -/
def jwtVerify (token : Wire) (secret : String) (now : Nat) : Option Claims :=
  match token with
  | .text _ => none
  | .jwt t => if t.key == secret && decide (now / 1000 < t.claims.exp) then some t.claims else none

/-- The function `signToken(user)`. -/
def signToken (env : Env) (now : Nat) (email : JVal) (role : String) : Jwt :=
  jwtSign email role env.jwtSecret now

/-! ## Requests and replies -/

/-- A file part of a multipart request, with the `Date.now()` read when its
stored name was chosen. -/
structure Upload where
  fieldname : String
  originalname : String
  storedAt : Nat

/-- An HTTP request as the handlers see it.  `authorization` is the value of
`(req.headers.authorization || '').replace('Bearer ', '')` when the header is
present; body fields that are absent are `undefined`. -/
structure Request where
  cookieToken : Option Wire := none
  authorization : Option Wire := none
  idParam : String := ""
  email : JVal := .undefined
  role : JVal := .undefined
  password : JVal := .undefined
  name : JVal := .undefined
  title : JVal := .undefined
  date : JVal := .undefined
  venue : JVal := .undefined
  position : JVal := .undefined
  department : JVal := .undefined
  description : JVal := .undefined
  link : JVal := .undefined
  files : List Upload := []

/-- A JSON response body. -/
inductive Body where
  | error (msg : String)
  | ok
  | loggedIn (email : JVal) (role : String)
  | me (user : Claims)
  | events (l : List Event)
  | team (l : List TeamMember)
  | achievements (l : List Achievement)
  | event (ev : Event)
  | member (m : TeamMember)
  | removed (m : TeamMember)
  | onboarded (email : JVal) (role : String) (tempPassword : String)
  | achievement (a : Achievement)

/-- A response sent by a handler; `setCookie` is the token of
`res.cookie('token', token, ...)`. -/
structure Response where
  status : Nat
  body : Body
  setCookie : Option Jwt := none

/-- How a request ends: a response was sent, or an exception (or a middleware
error) left the handler chain before any response was sent; the default error
handler of the framework answers such a request with 500. -/
inductive Reply where
  | sent (r : Response)
  | failed (cause : String)

/-- The HTTP status of a reply. -/
def Reply.status : Reply → Nat
  | .sent r => r.status
  | .failed _ => 500

/-- The credential a reply issues, if any. -/
def Reply.credential : Reply → Option Jwt
  | .sent r => r.setCookie
  | .failed _ => none

/-- The reply `res.status(code).json({ error: msg })`. -/
def errorReply (code : Nat) (msg : String) : Reply :=
  .sent { status := code, body := .error msg }

/-- The reply `res.json(body)`. -/
def jsonReply (body : Body) : Reply :=
  .sent { status := 200, body := body }

/-! ## Broadcast hub -/

/-- What `res.write(payload)` does on a registered response: the frame is
written, or the write fails (the connection is closed or destroyed: the call
returns `false`, the frame is dropped and the error is reported
asynchronously).  With a string chunk the call itself does not throw. -/
inductive WriteBehaviour where
  | accepts
  | drops
  deriving DecidableEq, Repr

/-- A member of `sseClients`. -/
structure Client where
  id : Nat
  behaviour : WriteBehaviour
  deriving DecidableEq, Repr

/-- The text written by `broadcast(event, data)`. -/
def frame (env : Env) (event : String) (data : Payload) : String :=
  "event: " ++ event ++ "\n" ++ "data: " ++ env.stringify data ++ "\n\n"

/-- The loop `for (const res of sseClients) { res.write(payload); }`: the
frames received, by client id, in the order of the writes. -/
def writeAll (payload : String) : List Client → List (Nat × String)
  | [] => []
  | c :: cs =>
    match c.behaviour with
    | .accepts => (c.id, payload) :: writeAll payload cs
    | .drops => writeAll payload cs

/-- The function `broadcast(event, data)`: the frames received by the
registered streams. -/
def broadcast (env : Env) (clients : List Client) (event : String) (data : Payload) :
    List (Nat × String) :=
  writeAll (frame env event data) clients

/-- A message handed to `mailTransport.sendMail`; `recipients` is the value
of its `to` field. -/
structure Mail where
  sender : String
  recipients : JVal
  subject : String
  text : String

/-- What a handler did besides replying. -/
structure Effects where
  /-- The calls of `broadcast`, in order. -/
  broadcasts : List (String × Payload) := []
  /-- The frames received by the open streams. -/
  delivered : List (Nat × String) := []
  /-- The messages handed to the mail transport. -/
  mails : List Mail := []

/-- The result of handling one request. -/
structure Outcome where
  store : Store
  reply : Reply
  effects : Effects := {}

/-! ## Uploads (`multer`) -/

/-- Membership in the character class `[a-zA-Z0-9_.-]`. -/
def safeChar (c : Char) : Bool :=
  ('a' ≤ c && c ≤ 'z') || ('A' ≤ c && c ≤ 'Z') || ('0' ≤ c && c ≤ '9') ||
    c == '_' || c == '.' || c == '-'

/-- What `replace(/[^a-zA-Z0-9_.-]/g, '_')` makes of one character: the
pattern works on UTF-16 code units, so a character outside the basic plane
(two code units) becomes two underscores. -/
def sanitizeChar (c : Char) : List Char :=
  if safeChar c then [c]
  else if c.toNat < 65536 then ['_'] else ['_', '_']

/-- The expression `file.originalname.replace(/[^a-zA-Z0-9_.-]/g, '_')`. -/
def sanitize (name : String) : String :=
  String.mk (name.data.flatMap sanitizeChar)

/-- The stored name chosen by the `filename` callback of the disk storage:
`Date.now() + '-' + sanitized`. -/
def storedName (timestamp : Nat) (originalname : String) : String :=
  toString timestamp ++ "-" ++ sanitize originalname

/-- The field `file.path`: the stored name under `UPLOADS_DIR`. -/
def Upload.path (env : Env) (f : Upload) : String :=
  env.uploadsDir ++ "/" ++ storedName f.storedAt f.originalname

/-- The function `path.basename` on a path that does not end in a slash: the
text after its last slash. -/
def basename (p : String) : String :=
  String.mk (p.data.foldl (fun acc c => if c == '/' then [] else acc ++ [c]) [])

/-- The URL `BASE_URL/uploads/basename(f.path)`. -/
def uploadUrl (env : Env) (f : Upload) : String :=
  env.baseUrl ++ "/uploads/" ++ basename (f.path env)

/-- The gate of `upload.array(field, maxCount)` and `upload.single(field)`
(`maxCount = 1`): a file under another field name, or one file more than
`maxCount`, is an error handed to the framework; the route handler then does
not run. -/
def multerAccepts (field : String) (maxCount : Nat) (files : List Upload) : Bool :=
  files.all (fun f => f.fieldname == field) && decide (files.length ≤ maxCount)

/-! ## Authentication middleware -/

/-- The expression `(req.headers.authorization || '').replace('Bearer ', '')`. -/
def headerToken (req : Request) : Wire :=
  match req.authorization with
  | some w => w
  | none => .text ""

/-- The expression `req.cookies.token || (...)` of `authMiddleware`. -/
def presentedToken (req : Request) : Wire :=
  match req.cookieToken with
  | some w => if w.truthy then w else headerToken req
  | none => headerToken req

/-- The function `authMiddleware`: the verified payload (`req.user`), or the
401 reply it sends. -/
def authMiddleware (env : Env) (ctx : Ctx) (req : Request) : Except Reply Claims :=
  if !(presentedToken req).truthy then .error (errorReply 401 "Unauthorized")
  else
    match jwtVerify (presentedToken req) env.jwtSecret ctx.verifyNow with
    | some user => .ok user
    | none => .error (errorReply 401 "Invalid token")

/-- The function `requireBearer`: `none` when it calls `next()`, else the 403
reply it sends. -/
def requireBearer (user : Claims) : Option Reply :=
  if user.role == "bearer" then none else some (errorReply 403 "Forbidden")

/-- The middleware chain `authMiddleware, requireBearer` in front of a write
handler `k`. -/
def bearerOnly (env : Env) (ctx : Ctx) (st : Store) (req : Request)
    (k : Claims → Outcome) : Outcome :=
  match authMiddleware env ctx req with
  | .error r => { store := st, reply := r }
  | .ok user =>
    match requireBearer user with
    | some r => { store := st, reply := r }
    | none => k user

/-! ## Registry lookups -/

/-- The call `v.toLowerCase()`: a `TypeError` unless `v` is a string. -/
def lowerOf (env : Env) (v : JVal) : Except String String :=
  match v with
  | .str s => .ok (env.toLowerCase s)
  | _ => .error "TypeError"

/-- The callback `u => u.email.toLowerCase() === String(email).toLowerCase()`:
the left operand is evaluated first, then `String(email)`; either may throw. -/
def sameEmailCoerced (env : Env) (email : JVal) (u : User) : Except String Bool :=
  match lowerOf env u.email with
  | .error e => .error e
  | .ok l =>
    match email.toStr env.numberText with
    | .error e => .error e
    | .ok t => .ok (l == env.toLowerCase t)

/-- The callback `u => u.email.toLowerCase() === email.toLowerCase()`. -/
def sameEmailStrict (env : Env) (email : JVal) (u : User) : Except String Bool :=
  match lowerOf env u.email with
  | .error e => .error e
  | .ok l =>
    match lowerOf env email with
    | .error e => .error e
    | .ok r => .ok (l == r)

/-- `Array.prototype.find` with a callback that may throw. -/
def findUser (p : User → Except String Bool) : List User → Except String (Option User)
  | [] => .ok none
  | u :: us =>
    match p u with
    | .error e => .error e
    | .ok true => .ok (some u)
    | .ok false => findUser p us

/-- The list `[...users.members, ...users.bearers]`. -/
def Users.all (users : Users) : List User := users.members ++ users.bearers

/-! ## Login -/

/-- The test `role === 'bearer' && !users.bearers.find(...)` of the login
handler. -/
def notABearer (env : Env) (users : Users) (req : Request) : Except String Bool :=
  if req.role.isStr "bearer" then
    match findUser (sameEmailStrict env req.email) users.bearers with
    | .error e => .error e
    | .ok found => .ok found.isNone
  else .ok false

/-- The string hashed by the login handler, `String(password || '')`, which
may throw. -/
def passwordText (env : Env) (password : JVal) : Except String String :=
  password.orEmpty.toStr env.numberText

/-- The password test of the login handler: `true` when the entry has no own
`password` (nothing is converted or hashed then), or when the stored value
equals the digest of the supplied password; an error when the conversion of
the password throws. -/
def passwordAccepted (env : Env) (allowed : User) (password : JVal) : Except String Bool :=
  match allowed.password with
  | none => .ok true
  | some stored =>
    match passwordText env password with
    | .error e => .error e
    | .ok t => .ok (stored == env.sha256hex t)

/-- The role written into the credential: `role === 'bearer' ? 'bearer' : 'member'`. -/
def normalRole (role : JVal) : String :=
  if role.isStr "bearer" then "bearer" else "member"

/-- The handler of `POST /api/auth/login`. -/
def login (env : Env) (ctx : Ctx) (st : Store) (req : Request) : Outcome :=
  if !req.email.truthy || !req.role.truthy then
    { store := st, reply := errorReply 400 "email and role required" }
  else
    match findUser (sameEmailCoerced env req.email) st.users.all with
    | .error e => { store := st, reply := .failed e }
    | .ok none => { store := st, reply := errorReply 401 "Not registered" }
    | .ok (some allowed) =>
      match notABearer env st.users req with
      | .error e => { store := st, reply := .failed e }
      | .ok true => { store := st, reply := errorReply 403 "Not a bearer" }
      | .ok false =>
        match passwordAccepted env allowed req.password with
        | .error e => { store := st, reply := .failed e }
        | .ok false => { store := st, reply := errorReply 401 "Invalid credentials" }
        | .ok true =>
          { store := st,
            reply := .sent { status := 200,
                             body := .loggedIn req.email (normalRole req.role),
                             setCookie := some (signToken env ctx.now req.email (normalRole req.role)) } }

/-! ## Mail blocks -/

/-- How a JavaScript statement completes. -/
inductive Completion where
  | normal
  | abrupt
  deriving DecidableEq, Repr

/-- The statement `mailTransport.sendMail(m).catch(err => ...)`: a rejection
is handled by the `.catch` callback, a synchronous throw leaves the statement
abruptly. -/
def sendWithCatch : MailResult → Completion
  | .resolves => .normal
  | .rejects => .normal
  | .throws => .abrupt

/-- The statement `await mailTransport.sendMail(m)`: a rejection is rethrown
by `await`. -/
def sendAwaited : MailResult → Completion
  | .resolves => .normal
  | .rejects => .abrupt
  | .throws => .abrupt

/-- The statement `try { block } catch (e) { }` with an empty handler. -/
def tryIgnore : Completion → Completion
  | .normal => .normal
  | .abrupt => .normal

/-! ## Events -/

/-- The handler of `GET /api/events`. -/
def getEvents (st : Store) : Outcome :=
  { store := st, reply := jsonReply (.events st.events) }

/-- The photo entries `(req.files || []).map(f => ...)`. -/
def photosOf (env : Env) (files : List Upload) : List Photo :=
  files.map (fun f => { name := f.originalname, url := uploadUrl env f })

/-- The recipients `[...members, ...bearers].map(u => u.email).join(',')`;
the join throws when an email cannot be converted. -/
def recipientsOf (env : Env) (users : Users) : Except String String :=
  JVal.joinElems env.numberText (users.all.map (fun u => u.email))

/-- The message object built for `sendMail` by the event handler, for the
recipients `recipients`; the template literals convert title, date and venue
and may throw. -/
def eventMail (env : Env) (recipients : String) (req : Request) (photos : List Photo) :
    Except String Mail :=
  match req.title.toStr env.numberText with
  | .error e => .error e
  | .ok title =>
    match req.date.toStr env.numberText with
    | .error e => .error e
    | .ok date =>
      match req.venue.toStr env.numberText with
      | .error e => .error e
      | .ok venue =>
        .ok { sender := env.mailFrom,
              recipients := .str recipients,
              subject := "[IEEE SB SMVITM] New Event: " ++ title,
              text := "Title: " ++ title ++ "\nDate: " ++ date ++
                "\nVenue: " ++ venue ++ "\nPhotos: " ++
                String.intercalate ", " (photos.map (fun ph => ph.url)) }

/-- The body of the `try` block of the event handler: how it completes and
the messages handed to the transport.  An exception while the recipients are
joined or the message is built leaves the block before `sendMail` is
called. -/
def eventMailBlock (env : Env) (ctx : Ctx) (users : Users) (req : Request)
    (photos : List Photo) : Completion × List Mail :=
  match recipientsOf env users with
  | .error _ => (.abrupt, [])
  | .ok recipients =>
    if recipients != "" then
      match eventMail env recipients req photos with
      | .error _ => (.abrupt, [])
      | .ok m => (sendWithCatch ctx.mail, [m])
    else (.normal, [])

/-- The record `ev` built by the event handler. -/
def newEvent (env : Env) (ctx : Ctx) (user : Claims) (req : Request) : Event :=
  { id := ctx.now, title := req.title, date := req.date, venue := req.venue,
    photos := photosOf env req.files, createdBy := user.email }

/-- The final handler of `POST /api/events`, after the middleware chain. -/
def createEvent (env : Env) (ctx : Ctx) (clients : List Client) (st : Store)
    (user : Claims) (req : Request) : Outcome :=
  if !req.title.truthy || !req.date.truthy || !req.venue.truthy then
    { store := st, reply := errorReply 400 "Missing fields" }
  else
    let ev := newEvent env ctx user req
    let st1 : Store := { st with events := st.events ++ [ev] }
    let delivered := broadcast env clients "event:new" (.event ev)
    let block := eventMailBlock env ctx st1.users req ev.photos
    match tryIgnore block.1 with
    | .abrupt =>
      { store := st1, reply := .failed "mail failed",
        effects := { broadcasts := [("event:new", .event ev)], delivered := delivered,
                     mails := block.2 } }
    | .normal =>
      { store := st1, reply := jsonReply (.event ev),
        effects := { broadcasts := [("event:new", .event ev)], delivered := delivered,
                     mails := block.2 } }

/-- The route `POST /api/events`: `authMiddleware`, `requireBearer`,
`upload.array('photos', 10)`, then the handler. -/
def postEvents (env : Env) (ctx : Ctx) (clients : List Client) (st : Store)
    (req : Request) : Outcome :=
  bearerOnly env ctx st req (fun user =>
    if multerAccepts "photos" 10 req.files then createEvent env ctx clients st user req
    else { store := st, reply := .failed "MulterError: LIMIT_UNEXPECTED_FILE" })

/-! ## Team -/

/-- The handler of `GET /api/team`. -/
def getTeam (st : Store) : Outcome :=
  { store := st, reply := jsonReply (.team st.team) }

/-- The record `member` built by the team-create handler. -/
def newMember (ctx : Ctx) (req : Request) : TeamMember :=
  { id := ctx.now, name := req.name, position := req.position,
    department := req.department.orEmpty, email := req.email.orEmpty }

/-- The route `POST /api/team`. -/
def postTeam (env : Env) (ctx : Ctx) (clients : List Client) (st : Store)
    (req : Request) : Outcome :=
  bearerOnly env ctx st req (fun _ =>
    if !req.name.truthy || !req.position.truthy then
      { store := st, reply := errorReply 400 "Missing fields" }
    else
      let member := newMember ctx req
      let st1 : Store := { st with team := st.team ++ [member] }
      { store := st1,
        reply := jsonReply (.member member),
        effects := { broadcasts := [("team:update", .member member)],
                     delivered := broadcast env clients "team:update" (.member member) } })

/-- The callback `t => Number(t.id) === id`. -/
def idMatches (id : Option Int) (t : TeamMember) : Bool :=
  id == some (t.id : Int)

/-- `Array.prototype.findIndex`: `none` stands for `-1`. -/
def findIndex {α : Type} (p : α → Bool) : List α → Option Nat
  | [] => none
  | x :: xs => if p x then some 0 else (findIndex p xs).map (· + 1)

/-- The object spread of the team-update handler: a supplied truthy field
overrides the stored one. -/
def mergeMember (old : TeamMember) (req : Request) : TeamMember :=
  { id := old.id,
    name := if req.name.truthy then req.name else old.name,
    position := if req.position.truthy then req.position else old.position,
    department := if req.department.truthy then req.department else old.department,
    email := if req.email.truthy then req.email else old.email }

/-- The route `PUT /api/team/:id`. -/
def putTeam (env : Env) (ctx : Ctx) (clients : List Client) (st : Store)
    (req : Request) : Outcome :=
  bearerOnly env ctx st req (fun _ =>
    match findIndex (idMatches (env.toNumber req.idParam)) st.team with
    | none => { store := st, reply := errorReply 404 "Not found" }
    | some idx =>
      match st.team.get? idx with
      | none => { store := st, reply := .failed "TypeError" }
      | some old =>
        let updated := mergeMember old req
        let st1 : Store := { st with team := st.team.set idx updated }
        { store := st1,
          reply := jsonReply (.member updated),
          effects := { broadcasts := [("team:update", .member updated)],
                       delivered := broadcast env clients "team:update" (.member updated) } })

/-- The route `DELETE /api/team/:id`. -/
def deleteTeam (env : Env) (ctx : Ctx) (clients : List Client) (st : Store)
    (req : Request) : Outcome :=
  bearerOnly env ctx st req (fun _ =>
    match findIndex (idMatches (env.toNumber req.idParam)) st.team with
    | none => { store := st, reply := errorReply 404 "Not found" }
    | some idx =>
      match st.team.get? idx with
      | none => { store := st, reply := .failed "TypeError" }
      | some removed =>
        let id := env.toNumber req.idParam
        let st1 : Store := { st with team := st.team.eraseIdx idx }
        { store := st1,
          reply := jsonReply (.removed removed),
          effects := { broadcasts := [("team:update", .removedId id)],
                       delivered := broadcast env clients "team:update" (.removedId id) } })

/-! ## Onboarding -/

/-- The alphabet of `base64url`. -/
def base64urlAlphabet : List Char :=
  "ABCDEFGHIJKLMNOPQRSTUVWXYZabcdefghijklmnopqrstuvwxyz0123456789-_".data

/-- The `base64url` digit of a six-bit value. -/
def sextet (n : Nat) : Char := base64urlAlphabet.getD (n % 64) 'A'

/-- The `base64url` text of three bytes. -/
def encode3 (a b c : Nat) : List Char :=
  [sextet (a / 4), sextet (a % 4 * 16 + b / 16), sextet (b % 16 * 4 + c / 64), sextet (c % 64)]

/-- The expression `crypto.randomBytes(6).toString('base64url')`. -/
def tempPasswordOf (r : Bytes6) : String :=
  String.mk (encode3 (r.b0 % 256) (r.b1 % 256) (r.b2 % 256) ++
    encode3 (r.b3 % 256) (r.b4 % 256) (r.b5 % 256))

/-- The record `newUser` built by the onboarding handler. -/
def newUser (env : Env) (ctx : Ctx) (req : Request) : User :=
  { email := req.email, role := normalRole req.role,
    password := some (env.sha256hex (tempPasswordOf ctx.rand)),
    name := some req.name.orEmpty }

/-- The statement `if (newUser.role === 'bearer') users.bearers.push(newUser);
else users.members.push(newUser);`. -/
def addUser (users : Users) (u : User) : Users :=
  if u.role == "bearer" then { users with bearers := users.bearers ++ [u] }
  else { users with members := users.members ++ [u] }

/-- The greeting `name ? ' ' + name : ''` of the onboarding mail. -/
def greetingOf (env : Env) (name : JVal) : Except String String :=
  if name.truthy then
    match name.toStr env.numberText with
    | .error e => .error e
    | .ok n => .ok (" " ++ n)
  else .ok ""

/-- The message object built for `sendMail` by the onboarding handler; `to`
is the email as received, and the template literal converts name and email
and may throw. -/
def onboardMail (env : Env) (ctx : Ctx) (req : Request) : Except String Mail :=
  match greetingOf env req.name with
  | .error e => .error e
  | .ok greeting =>
    match req.email.toStr env.numberText with
    | .error e => .error e
    | .ok email =>
      .ok { sender := env.mailFrom,
            recipients := req.email,
            subject := "[IEEE SB SMVITM] Your account credentials",
            text := "Hello" ++ greeting ++
              ",\n\nYour access to IEEE SB SMVITM website has been created.\n\nEmail: " ++
              email ++ "\nTemporary Password: " ++ tempPasswordOf ctx.rand ++
              "\nRole: " ++ normalRole req.role ++ "\n\nLogin at " ++ env.baseUrl ++
              "/login.html and change your password soon.\n" }

/-- The body of the `try` block of the onboarding handler: how it completes
and the messages handed to the transport. -/
def onboardMailBlock (env : Env) (ctx : Ctx) (req : Request) : Completion × List Mail :=
  match onboardMail env ctx req with
  | .error _ => (.abrupt, [])
  | .ok m => (sendAwaited ctx.mail, [m])

/-- The final handler of `POST /api/members/onboard`. -/
def onboardHandler (env : Env) (ctx : Ctx) (st : Store) (req : Request) : Outcome :=
  if !req.email.truthy then { store := st, reply := errorReply 400 "email required" }
  else
    match findUser (sameEmailCoerced env req.email) st.users.all with
    | .error e => { store := st, reply := .failed e }
    | .ok (some _) => { store := st, reply := errorReply 409 "User already exists" }
    | .ok none =>
      let st1 : Store := { st with users := addUser st.users (newUser env ctx req) }
      let block := onboardMailBlock env ctx req
      match tryIgnore block.1 with
      | .abrupt =>
        { store := st1, reply := .failed "mail failed", effects := { mails := block.2 } }
      | .normal =>
        { store := st1,
          reply := jsonReply (.onboarded req.email (normalRole req.role) (tempPasswordOf ctx.rand)),
          effects := { mails := block.2 } }

/-- The route `POST /api/members/onboard`. -/
def onboard (env : Env) (ctx : Ctx) (st : Store) (req : Request) : Outcome :=
  bearerOnly env ctx st req (fun _ => onboardHandler env ctx st req)

/-! ## Achievements -/

/-- The handler of `GET /api/achievements`. -/
def getAchievements (st : Store) : Outcome :=
  { store := st, reply := jsonReply (.achievements st.achievements) }

/-- The record `item` built by the achievements handler; `req.file` is the
first uploaded file, if any. -/
def newAchievement (env : Env) (ctx : Ctx) (user : Claims) (req : Request) : Achievement :=
  { id := ctx.now, title := req.title, description := req.description.orEmpty,
    link := req.link.orEmpty,
    imageUrl := match req.files.head? with
      | some f => uploadUrl env f
      | none => "",
    createdBy := user.email, createdAt := env.isoString ctx.dateNow }

/-- The route `POST /api/achievements`: `authMiddleware`, `requireBearer`,
`upload.single('image')`, then the handler. -/
def postAchievements (env : Env) (ctx : Ctx) (clients : List Client) (st : Store)
    (req : Request) : Outcome :=
  bearerOnly env ctx st req (fun user =>
    if !multerAccepts "image" 1 req.files then
      { store := st, reply := .failed "MulterError: LIMIT_UNEXPECTED_FILE" }
    else if !req.title.truthy then { store := st, reply := errorReply 400 "title required" }
    else
      let item := newAchievement env ctx user req
      let st1 : Store := { st with achievements := st.achievements ++ [item] }
      { store := st1,
        reply := jsonReply (.achievement item),
        effects := { broadcasts := [("ach:new", .achievement item)],
                     delivered := broadcast env clients "ach:new" (.achievement item) } })

/-! ## Remaining routes and the router -/

/-- The handler of `POST /api/auth/logout`. -/
def logout (st : Store) : Outcome :=
  { store := st, reply := jsonReply .ok }

/-- The route `GET /api/auth/me`. -/
def me (env : Env) (ctx : Ctx) (st : Store) (req : Request) : Outcome :=
  match authMiddleware env ctx req with
  | .error r => { store := st, reply := r }
  | .ok user => { store := st, reply := jsonReply (.me user) }

/-- The JSON routes registered on `app`. -/
inductive Route where
  | login
  | logout
  | me
  | getEvents
  | postEvents
  | getTeam
  | postTeam
  | putTeam
  | deleteTeam
  | onboard
  | getAchievements
  | postAchievements
  deriving DecidableEq, Repr

/-- The routes registered with `authMiddleware`. -/
def Route.isProtected : Route → Bool
  | .me | .postEvents | .postTeam | .putTeam | .deleteTeam | .onboard | .postAchievements => true
  | _ => false

/-- The six write endpoints, registered with `authMiddleware, requireBearer`. -/
def Route.isWrite : Route → Bool
  | .postEvents | .postTeam | .putTeam | .deleteTeam | .onboard | .postAchievements => true
  | _ => false

/-- Dispatch of a request to the handler registered for its route. -/
def handle (env : Env) (ctx : Ctx) (clients : List Client) (st : Store) :
    Route → Request → Outcome
  | .login, req => login env ctx st req
  | .logout, _ => logout st
  | .me, req => me env ctx st req
  | .getEvents, _ => getEvents st
  | .postEvents, req => postEvents env ctx clients st req
  | .getTeam, _ => getTeam st
  | .postTeam, req => postTeam env ctx clients st req
  | .putTeam, req => putTeam env ctx clients st req
  | .deleteTeam, req => deleteTeam env ctx clients st req
  | .onboard, req => onboard env ctx st req
  | .getAchievements, _ => getAchievements st
  | .postAchievements, req => postAchievements env ctx clients st req

/-! ## Concrete instances

A host environment with stand-in library functions, the registry that
`server.js` seeds `users.json` with, and a few requests, for evaluating the
handlers on explicit inputs. -/

/-- A host environment with simple stand-ins for the library functions. -/
def demoEnv : Env :=
  { sha256hex := fun s => "sha256:" ++ s,
    toLowerCase := fun s => String.mk (s.data.map Char.toLower),
    toNumber := fun s =>
      if s.data.all Char.isDigit && s != "" then
        some (Int.ofNat (s.data.foldl (fun n c => 10 * n + (c.toNat - 48)) 0))
      else none,
    numberText := fun n => toString n,
    stringify := fun p =>
      match p with
      | .event ev => "event#" ++ toString ev.id
      | .member m => "member#" ++ toString m.id
      | .removedId id => "removed#" ++ toString id
      | .achievement a => "achievement#" ++ toString a.id,
    isoString := fun t => toString t,
    baseUrl := "http://localhost:3000",
    uploadsDir := "/srv/uploads",
    mailFrom := "ieee-sb@localhost",
    jwtSecret := "dev-secret-change-me" }

/-- The registry written to `users.json` when the file does not exist. -/
def seedUsers : Users :=
  { members := [{ email := .str "member@example.com", role := "member" },
                { email := .str "student@s.smvitm.ac.in", role := "member" }],
    bearers := [{ email := .str "chair@s.smvitm.ac.in", role := "bearer" },
                { email := .str "secretary@s.smvitm.ac.in", role := "bearer" }] }

/-- The collections of a freshly started server. -/
def seedStore : Store :=
  { users := seedUsers, events := [], team := [], achievements := [] }

/-- An instant, in milliseconds, with well-behaved mail. -/
def demoCtx : Ctx :=
  { verifyNow := 1700000001000, now := 1700000001000, dateNow := 1700000001000,
    rand := { b0 := 1, b1 := 2, b2 := 3, b3 := 4, b4 := 5, b5 := 6 },
    mail := .resolves }

/-- The credential issued to the chair as bearer at instant `1700000000000`. -/
def chairToken : Jwt :=
  signToken demoEnv 1700000000000 (.str "chair@s.smvitm.ac.in") "bearer"

/-- The credential issued to a member at instant `1700000000000`. -/
def memberToken : Jwt :=
  signToken demoEnv 1700000000000 (.str "member@example.com") "member"

/-- An upload in the `photos` field. -/
def demoPhoto : Upload :=
  { fieldname := "photos", originalname := "group photo.jpg", storedAt := 1700000000500 }

/-- A valid event submission by the chair, with one photo. -/
def eventRequest : Request :=
  { cookieToken := some (.jwt chairToken),
    title := .str "Tech Talk", date := .str "2024-01-15", venue := .str "Seminar Hall",
    files := [demoPhoto] }

/-- The same submission with eleven photos. -/
def elevenPhotosRequest : Request :=
  { eventRequest with files := List.replicate 11 demoPhoto }

/-! ## Vocabulary of the claims -/

/-- Whether a value is a string. -/
def JVal.isString : JVal → Bool
  | .str _ => true
  | _ => false

/-- The text `String(email)` of a request email, when the conversion does not
throw. -/
def emailText (env : Env) (email : JVal) : Option String :=
  match email.toStr env.numberText with
  | .ok t => some t
  | .error _ => none

/-- The request email `email` equals, ignoring case, the email of the
registry entry `u`: both have a text and the texts agree in lower case. -/
def entryMatches (env : Env) (email : JVal) (u : User) : Bool :=
  match u.email, emailText env email with
  | .str s, some t => env.toLowerCase s == env.toLowerCase t
  | _, _ => false

/-- Every entry of the registry carries a string email (the `User` of the
data model). -/
def Users.stringEmails (users : Users) : Bool :=
  users.all.all (fun u => u.email.isString)

/-- A login request for an unregistered address that names no role. -/
def roleLessLogin : Request :=
  { email := .str "ghost@nowhere.org" }

/-- A login request as bearer whose email is a one-element array holding the
address of a seeded member. -/
def arrayEmailLogin : Request :=
  { email := .arr [.str "member@example.com"], role := .str "bearer" }

/-- A registry entry created by onboarding, with the digest of the temporary
password `s3cr3t-pw`. -/
def onboardedUser : User :=
  { email := .str "new@x.org", role := "member",
    password := some (demoEnv.sha256hex "s3cr3t-pw"), name := some (.str "") }

/-- The seeded collections plus one onboarded member. -/
def storeWithOnboarded : Store :=
  { seedStore with users := { seedUsers with members := seedUsers.members ++ [onboardedUser] } }

/-- The email of a registry entry as the lookups compare it, in lower case;
`none` for an email that is not a string (on which `toLowerCase` throws). -/
def emailKey (env : Env) (u : User) : Option String :=
  match u.email with
  | .str s => some (env.toLowerCase s)
  | _ => none

/-- Emails are unique, ignoring case, across the members and bearers lists. -/
def Users.uniqueEmails (env : Env) (users : Users) : Prop :=
  (users.all.map (emailKey env)).Nodup

instance (env : Env) (users : Users) : Decidable (users.uniqueEmails env) :=
  inferInstanceAs (Decidable (users.all.map (emailKey env)).Nodup)

/-- The chair onboards `new@x.org` as member. -/
def onboardRequest : Request :=
  { cookieToken := some (.jwt chairToken), email := .str "new@x.org", role := .str "member",
    name := .str "Newcomer" }

/-- A login for `new@x.org` as member with the given password. -/
def newcomerLogin (password : JVal) : Request :=
  { email := .str "new@x.org", role := .str "member", password := password }

/-- A second onboarding of the same address, written in capitals and asking
for the bearer role. -/
def repeatedOnboardRequest : Request :=
  { cookieToken := some (.jwt chairToken), email := .str "NEW@X.ORG", role := .str "bearer" }

/-- A stored team of two members. -/
def demoTeam : List TeamMember :=
  [{ id := 1700000000001, name := .str "Asha", position := .str "Chair",
     department := .str "CSE", email := .str "asha@x.org" },
   { id := 1700000000002, name := .str "Ravi", position := .str "Secretary",
     department := .str "", email := .str "" }]

/-- The seeded collections with the two-member team. -/
def teamStore : Store := { seedStore with team := demoTeam }

/-- The chair asks to delete the team member with the given id text. -/
def deleteRequest (id : String) : Request :=
  { cookieToken := some (.jwt chairToken), idParam := id }

/-- A member (not a bearer) submits an event. -/
def memberEventRequest : Request :=
  { eventRequest with cookieToken := some (.jwt memberToken) }

/-- Three open streams: accepting, dropping, accepting. -/
def acceptDropAccept : List Client :=
  [{ id := 1, behaviour := .accepts }, { id := 2, behaviour := .drops },
   { id := 3, behaviour := .accepts }]

/-- The chair adds a team member. -/
def teamRequest : Request :=
  { cookieToken := some (.jwt chairToken), name := .str "Asha", position := .str "Chair" }

/-- The frame as the specification words it, with a blank before `data:`. -/
def specFrame (env : Env) (event : String) (data : Payload) : String :=
  "event: " ++ event ++ "\n data: " ++ env.stringify data ++ "\n\n"

/-- A login of the chair as bearer. -/
def chairLogin : Request :=
  { email := .str "chair@s.smvitm.ac.in", role := .str "bearer" }

/-- Milliseconds in seven days. -/
def sevenDaysMs : Nat := sevenDays * 1000

/-- The context `ctx` with the given behaviour of the mail transport. -/
def Ctx.withMail (ctx : Ctx) (m : MailResult) : Ctx := { ctx with mail := m }

/-- The number of UTF-16 code units of a character, which is what a
JavaScript string (and a regular expression without the `u` flag) counts as
its characters. -/
def utf16Units (c : Char) : Nat := if c.toNat < 65536 then 1 else 2

/-- An upload whose original name tries to leave the uploads directory. -/
def traversalUpload : Upload :=
  { fieldname := "photos", originalname := "../../etc/passwd", storedAt := 1700000000500 }

/-- A stored team in which two records carry the same id. -/
def duplicateTeam : List TeamMember :=
  [{ id := 7, name := .str "Asha", position := .str "Chair",
     department := .str "CSE", email := .str "asha@x.org" },
   { id := 9, name := .str "Ravi", position := .str "Secretary",
     department := .str "ECE", email := .str "ravi@x.org" },
   { id := 9, name := .str "Kiran", position := .str "Treasurer",
     department := .str "", email := .str "" }]

/-- The seeded collections with `duplicateTeam`. -/
def duplicateStore : Store := { seedStore with team := duplicateTeam }

/-- The chair renames the record with id 9 and supplies an empty position. -/
def renameRequest : Request :=
  { cookieToken := some (.jwt chairToken), idParam := "9", name := .str "Ravi Kumar",
    position := .str "" }

/-- An object with the single own property `toString`, of value `1`, as
`JSON.parse` makes of a body field: the property is not callable and hides
the inherited method, so `String()` of the object throws. -/
def uncoercible : JVal := .obj true [("toString", .num 1)]

/-- The chair onboards an address given as a one-element array. -/
def arrayOnboardRequest : Request :=
  { cookieToken := some (.jwt chairToken), email := .arr [.str "x@y.z"] }

/-- The chair onboards the address of the seeded chair again. -/
def chairOnboardRequest : Request :=
  { cookieToken := some (.jwt chairToken), email := .str "chair@s.smvitm.ac.in" }

/-- One open stream that accepts. -/
def oneAccepting : List Client := [{ id := 1, behaviour := .accepts }]

end Server

namespace Server

/-! ## Middleware lemmas -/

theorem bearerOnly_of_bearer (env : Env) (ctx : Ctx) (st : Store) (req : Request)
    (k : Claims → Outcome) (user : Claims)
    (hauth : authMiddleware env ctx req = .ok user) (hrole : user.role = "bearer") :
    bearerOnly env ctx st req k = k user := by
  simp [bearerOnly, hauth, requireBearer, hrole]

theorem bearerOnly_of_not_bearer (env : Env) (ctx : Ctx) (st : Store) (req : Request)
    (k : Claims → Outcome) (user : Claims)
    (hauth : authMiddleware env ctx req = .ok user) (hrole : user.role ≠ "bearer") :
    bearerOnly env ctx st req k = { store := st, reply := errorReply 403 "Forbidden" } := by
  simp [bearerOnly, hauth, requireBearer, hrole]

/-! ## C1: event creation -/

theorem tryIgnore_normal (c : Completion) : tryIgnore c = .normal := by
  cases c <;> rfl

theorem createEvent_store (env : Env) (ctx : Ctx) (clients : List Client) (st : Store)
    (user : Claims) (req : Request) (htitle : req.title.truthy = true)
    (hdate : req.date.truthy = true) (hvenue : req.venue.truthy = true) :
    (createEvent env ctx clients st user req).store =
      { st with events := st.events ++ [newEvent env ctx user req] } := by
  simp only [createEvent, htitle, hdate, hvenue, Bool.not_true, Bool.or_self,
    Bool.false_eq_true, if_false, tryIgnore_normal]

theorem createEvent_broadcasts (env : Env) (ctx : Ctx) (clients : List Client) (st : Store)
    (user : Claims) (req : Request) (htitle : req.title.truthy = true)
    (hdate : req.date.truthy = true) (hvenue : req.venue.truthy = true) :
    (createEvent env ctx clients st user req).effects.broadcasts =
      [("event:new", .event (newEvent env ctx user req))] := by
  simp only [createEvent, htitle, hdate, hvenue, Bool.not_true, Bool.or_self,
    Bool.false_eq_true, if_false, tryIgnore_normal]

theorem multerAccepts_iff (field : String) (maxCount : Nat) (files : List Upload) :
    multerAccepts field maxCount files = true ↔
      (∀ f ∈ files, f.fieldname = field) ∧ files.length ≤ maxCount := by
  simp [multerAccepts]

/-- C1 (as amended): for every stored events list and every `POST /api/events`
request whose verified role is bearer, whose title, date and venue are truthy
and whose files pass the upload gate (at most ten, all in the `photos`
field), the stored list afterwards is the previous list with exactly one entry
appended, carrying the submitted title, date and venue; `broadcast` is called
exactly once, with `event:new` and that entry; and `GET /api/events` then
returns the extended list. -/
theorem postEvents_appends_and_broadcasts (env : Env) (ctx : Ctx) (clients : List Client)
    (st : Store) (req : Request) (user : Claims)
    (hauth : authMiddleware env ctx req = .ok user) (hrole : user.role = "bearer")
    (htitle : req.title.truthy = true) (hdate : req.date.truthy = true)
    (hvenue : req.venue.truthy = true)
    (hcount : req.files.length ≤ 10) (hfield : ∀ f ∈ req.files, f.fieldname = "photos") :
    ∃ ev : Event,
      (postEvents env ctx clients st req).store.events = st.events ++ [ev] ∧
      ev.title = req.title ∧ ev.date = req.date ∧ ev.venue = req.venue ∧
      (postEvents env ctx clients st req).effects.broadcasts = [("event:new", .event ev)] ∧
      (getEvents (postEvents env ctx clients st req).store).reply =
        jsonReply (.events (st.events ++ [ev])) := by
  have hgate : multerAccepts "photos" 10 req.files = true :=
    (multerAccepts_iff _ _ _).2 ⟨hfield, hcount⟩
  have hrun : postEvents env ctx clients st req = createEvent env ctx clients st user req := by
    rw [postEvents, bearerOnly_of_bearer env ctx st req _ user hauth hrole]
    simp [hgate]
  refine ⟨newEvent env ctx user req, ?_, rfl, rfl, rfl, ?_, ?_⟩
  · rw [hrun, createEvent_store env ctx clients st user req htitle hdate hvenue]
  · rw [hrun, createEvent_broadcasts env ctx clients st user req htitle hdate hvenue]
  · rw [hrun, createEvent_store env ctx clients st user req htitle hdate hvenue]
    rfl

/-- The submission of eleven photos by a verified bearer with title, date and
venue present: the upload gate hands an error to the framework, the stored
events list is unchanged and nothing is broadcast. -/
theorem postEvents_eleven_photos_not_appended :
    authMiddleware demoEnv demoCtx elevenPhotosRequest = .ok chairToken.claims ∧
    chairToken.claims.role = "bearer" ∧
    elevenPhotosRequest.title.truthy = true ∧ elevenPhotosRequest.date.truthy = true ∧
    elevenPhotosRequest.venue.truthy = true ∧
    (postEvents demoEnv demoCtx [] seedStore elevenPhotosRequest).reply.status = 500 ∧
    (postEvents demoEnv demoCtx [] seedStore elevenPhotosRequest).effects.broadcasts = [] ∧
    ¬ ∃ ev : Event,
      (postEvents demoEnv demoCtx [] seedStore elevenPhotosRequest).store.events =
        seedStore.events ++ [ev] := by
  refine ⟨rfl, rfl, rfl, rfl, rfl, rfl, rfl, ?_⟩
  rintro ⟨ev, hev⟩
  have h0 : (postEvents demoEnv demoCtx [] seedStore elevenPhotosRequest).store.events = [] := rfl
  rw [h0] at hev
  simp [seedStore] at hev

theorem postEvents_appends_and_broadcasts_witness :
    ∃ ev : Event,
      (postEvents demoEnv demoCtx [] seedStore eventRequest).store.events =
        seedStore.events ++ [ev] ∧
      ev.title = eventRequest.title ∧ ev.date = eventRequest.date ∧
      ev.venue = eventRequest.venue ∧
      (postEvents demoEnv demoCtx [] seedStore eventRequest).effects.broadcasts =
        [("event:new", .event ev)] ∧
      (getEvents (postEvents demoEnv demoCtx [] seedStore eventRequest).store).reply =
        jsonReply (.events (seedStore.events ++ [ev])) :=
  postEvents_appends_and_broadcasts demoEnv demoCtx [] seedStore eventRequest chairToken.claims
    rfl rfl rfl rfl rfl (by decide) (by decide)

/-! ## Registry lookups -/

theorem emailText_str (env : Env) (e : String) : emailText env (.str e) = some e := rfl

theorem toStr_of_emailText (env : Env) (email : JVal) (t : String)
    (h : emailText env email = some t) : email.toStr env.numberText = .ok t := by
  unfold emailText at h
  split at h
  · rename_i t' ht
    rw [ht]
    simp only [Option.some.injEq] at h
    rw [h]
  · exact absurd h (by simp)

theorem sameEmailCoerced_of_string (env : Env) (email : JVal) (u : User) (t : String)
    (h : u.email.isString = true) (ht : emailText env email = some t) :
    sameEmailCoerced env email u = .ok (entryMatches env email u) := by
  cases hu : u.email <;> simp [JVal.isString, hu] at h
  simp [sameEmailCoerced, entryMatches, lowerOf, hu, ht, toStr_of_emailText env email t ht]

theorem findUser_none (p : User → Except String Bool) (l : List User)
    (h : ∀ u ∈ l, p u = .ok false) : findUser p l = .ok none := by
  induction l with
  | nil => rfl
  | cons u us ih =>
    have hu := h u (List.mem_cons_self u us)
    simp only [findUser, hu]
    exact ih (fun v hv => h v (List.mem_cons_of_mem u hv))

theorem stringEmails_mem (users : Users) (h : users.stringEmails = true) (u : User)
    (hu : u ∈ users.all) : u.email.isString = true := by
  simp only [Users.stringEmails, List.all_eq_true] at h
  exact h u hu

/-! ## C2: login with an unregistered email -/

/-- A login request for an address in neither list that names no role is
answered 400 by the guard on line 113, not 401. -/
theorem login_unregistered_without_role_is_400 :
    seedUsers.stringEmails = true ∧
    (∀ u ∈ seedUsers.members, entryMatches demoEnv roleLessLogin.email u = false) ∧
    (∀ u ∈ seedUsers.bearers, entryMatches demoEnv roleLessLogin.email u = false) ∧
    (login demoEnv demoCtx seedStore roleLessLogin).reply =
      errorReply 400 "email and role required" ∧
    (login demoEnv demoCtx seedStore roleLessLogin).reply.status ≠ 401 := by
  refine ⟨rfl, by decide, by decide, rfl, by decide⟩

/-- C2 (as amended): for every users registry (entries with string emails)
and every login request whose email has a text `String(email)` (the
conversion does not throw) that equals, ignoring case, the email of no entry
of the members list and of no entry of the bearers list: no credential is
issued and the collections are unchanged; if the request supplies an email
and a role (both truthy), whatever the role, the reply is 401; if it lacks
one of them the reply is 400. -/
theorem login_unregistered_email (env : Env) (ctx : Ctx) (st : Store) (req : Request)
    (t : String) (hwf : st.users.stringEmails = true)
    (htext : emailText env req.email = some t)
    (hmem : ∀ u ∈ st.users.members, entryMatches env req.email u = false)
    (hbear : ∀ u ∈ st.users.bearers, entryMatches env req.email u = false) :
    (login env ctx st req).reply.credential = none ∧
    (login env ctx st req).store = st ∧
    (req.email.truthy = true → req.role.truthy = true →
      (login env ctx st req).reply = errorReply 401 "Not registered" ∧
      (login env ctx st req).reply.status = 401) ∧
    (¬ (req.email.truthy = true ∧ req.role.truthy = true) →
      (login env ctx st req).reply = errorReply 400 "email and role required") := by
  have hfind : findUser (sameEmailCoerced env req.email) st.users.all = .ok none := by
    apply findUser_none
    intro u hu
    rw [sameEmailCoerced_of_string env req.email u t (stringEmails_mem st.users hwf u hu) htext]
    rcases List.mem_append.1 hu with h | h
    · rw [hmem u h]
    · rw [hbear u h]
  by_cases hguard : req.email.truthy = true ∧ req.role.truthy = true
  · have hl : login env ctx st req = { store := st, reply := errorReply 401 "Not registered" } := by
      simp [login, hguard.1, hguard.2, hfind]
    rw [hl]
    exact ⟨rfl, rfl, fun _ _ => ⟨rfl, rfl⟩, fun h => absurd hguard h⟩
  · have hl : login env ctx st req =
        { store := st, reply := errorReply 400 "email and role required" } := by
      have : (!req.email.truthy || !req.role.truthy) = true := by
        cases h1 : req.email.truthy <;> cases h2 : req.role.truthy <;> simp_all
      simp [login, this]
    rw [hl]
    exact ⟨rfl, rfl, fun h1 h2 => absurd ⟨h1, h2⟩ hguard, fun _ => rfl⟩

theorem login_unregistered_email_witness :
    seedUsers.stringEmails = true ∧
    emailText demoEnv (.str "ghost@nowhere.org") = some "ghost@nowhere.org" ∧
    (login demoEnv demoCtx seedStore
      { email := .str "ghost@nowhere.org", role := .str "bearer" }).reply.credential = none ∧
    (login demoEnv demoCtx seedStore
      { email := .str "ghost@nowhere.org", role := .str "bearer" }).reply.status = 401 :=
  ⟨rfl, rfl,
   (login_unregistered_email demoEnv demoCtx seedStore
      { email := .str "ghost@nowhere.org", role := .str "bearer" } "ghost@nowhere.org" rfl rfl
      (by decide) (by decide)).1,
   ((login_unregistered_email demoEnv demoCtx seedStore
      { email := .str "ghost@nowhere.org", role := .str "bearer" } "ghost@nowhere.org" rfl rfl
      (by decide) (by decide)).2.2.1 rfl rfl).2⟩

/-! ## C3: bearer login for an address registered as member only -/

theorem sameEmailStrict_of_strings (env : Env) (e : String) (u : User)
    (h : u.email.isString = true) :
    sameEmailStrict env (.str e) u = .ok (entryMatches env (.str e) u) := by
  cases hu : u.email <;> simp [JVal.isString, hu] at h
  simp [sameEmailStrict, entryMatches, lowerOf, hu, emailText_str]

/-- C3, evaluated at the failing input: on the seeded registry, a bearer login
whose email is the array `["member@example.com"]` matches a member entry and
no bearer entry under the comparison of line 115 (`String(email)`), yet the
comparison of line 117 calls `email.toLowerCase()` on the array and throws:
the request ends in the default error handler (500), not in a 403. -/
theorem login_bearer_array_email_throws :
    seedUsers.stringEmails = true ∧
    (∃ u ∈ seedUsers.members, entryMatches demoEnv arrayEmailLogin.email u = true) ∧
    (∀ u ∈ seedUsers.bearers, entryMatches demoEnv arrayEmailLogin.email u = false) ∧
    arrayEmailLogin.role.isStr "bearer" = true ∧
    (login demoEnv demoCtx seedStore arrayEmailLogin).reply = .failed "TypeError" ∧
    (login demoEnv demoCtx seedStore arrayEmailLogin).reply.status = 500 := by
  refine ⟨rfl, by decide, by decide, rfl, rfl, rfl⟩

theorem findUser_coerced_found (env : Env) (email : JVal) (l : List User) (t : String)
    (hall : ∀ v ∈ l, v.email.isString = true) (ht : emailText env email = some t)
    (hex : ∃ u ∈ l, entryMatches env email u = true) :
    ∃ a, findUser (sameEmailCoerced env email) l = .ok (some a) := by
  obtain ⟨u, hin, hm⟩ := hex
  induction l with
  | nil => exact absurd hin (List.not_mem_nil u)
  | cons v vs ih =>
    rw [findUser, sameEmailCoerced_of_string env email v t (hall v (List.mem_cons_self v vs)) ht]
    cases hv : entryMatches env email v
    · rcases List.mem_cons.1 hin with h | h
      · rw [← h, hm] at hv
        exact absurd hv (by decide)
      · exact ih (fun w hw => hall w (List.mem_cons_of_mem v hw)) h
    · exact ⟨v, rfl⟩

/-- With a string email the role check behaves as described: a bearer login
for an address that matches a member entry and no bearer entry is answered
403 whatever the password, and no credential is issued. -/
theorem login_bearer_role_for_member_string_email (env : Env) (ctx : Ctx) (st : Store)
    (req : Request) (e : String) (hwf : st.users.stringEmails = true)
    (hstr : req.email = .str e) (hemail : req.email.truthy = true)
    (hrole : req.role.isStr "bearer" = true)
    (hmem : ∃ u ∈ st.users.members, entryMatches env req.email u = true)
    (hbear : ∀ u ∈ st.users.bearers, entryMatches env req.email u = false) :
    (login env ctx st req).reply = errorReply 403 "Not a bearer" ∧
    (login env ctx st req).reply.credential = none ∧
    (login env ctx st req).store = st := by
  have hroleT : req.role.truthy = true := by
    cases hr : req.role <;> simp [JVal.isStr, hr] at hrole
    simp [JVal.truthy, hrole]
  have hnb : notABearer env st.users req = .ok true := by
    have hf : findUser (sameEmailStrict env req.email) st.users.bearers = .ok none := by
      apply findUser_none
      intro u hu
      have hs := stringEmails_mem st.users hwf u (List.mem_append_right _ hu)
      rw [hstr, sameEmailStrict_of_strings env e u hs, ← hstr, hbear u hu]
    simp [notABearer, hrole, hf]
  have htext : emailText env req.email = some e := by rw [hstr]; rfl
  obtain ⟨a, ha⟩ := findUser_coerced_found env req.email st.users.all e
    (fun v hv => stringEmails_mem st.users hwf v hv) htext
    (by obtain ⟨u, hu, hm⟩ := hmem; exact ⟨u, List.mem_append_left _ hu, hm⟩)
  have hl : login env ctx st req = { store := st, reply := errorReply 403 "Not a bearer" } := by
    simp [login, hemail, hroleT, ha, hnb]
  rw [hl]
  exact ⟨rfl, rfl, rfl⟩

/-! ## C4: the password check -/

/-- The hashed text of a string password is the password itself. -/
theorem login_password_text_str (env : Env) (s : String) :
    passwordText env (.str s) = .ok s := by
  by_cases hs : s = ""
  · subst hs; rfl
  · simp [passwordText, JVal.orEmpty, JVal.truthy, hs, JVal.toStr]

/-- C4, evaluated at the failing input: on a registry holding an onboarded
member with a stored hash, a member login for that address passes the guard,
the registry lookup and the role check; the supplied password is an object
with an own property `toString`, so `String(password || '')` on line 122
throws and the request ends in the default error handler (500), where the
claim requires 401 for every password whose digest is not the stored hash. -/
theorem login_uncoercible_password_throws :
    (newcomerLogin uncoercible).email.truthy = true ∧
    (newcomerLogin uncoercible).role.truthy = true ∧
    findUser (sameEmailCoerced demoEnv (newcomerLogin uncoercible).email)
      storeWithOnboarded.users.all = .ok (some onboardedUser) ∧
    notABearer demoEnv storeWithOnboarded.users (newcomerLogin uncoercible) = .ok false ∧
    onboardedUser.password = some (demoEnv.sha256hex "s3cr3t-pw") ∧
    passwordText demoEnv uncoercible = .error "TypeError" ∧
    (login demoEnv demoCtx storeWithOnboarded (newcomerLogin uncoercible)).reply =
      .failed "TypeError" ∧
    (login demoEnv demoCtx storeWithOnboarded (newcomerLogin uncoercible)).reply.status = 500 := by
  refine ⟨rfl, rfl, rfl, rfl, rfl, rfl, rfl, rfl⟩

/-- The password check for a password that `String(password || '')` converts
(to the text `t`): for every login request that passes the guard, the
registry lookup (yielding the entry `allowed`) and the role check, if
`allowed` carries a stored hash, login succeeds (200, credential issued)
exactly when the SHA-256 hex digest of `t` equals the stored hash, and
otherwise fails with 401 and no credential; if `allowed` carries no hash,
login succeeds whatever the password is (it is not even converted).  The text
of a string password is the password itself, that of an absent one is the
empty string. -/
theorem login_password_check (env : Env) (ctx : Ctx) (st : Store) (req : Request)
    (allowed : User) (t : String)
    (hemail : req.email.truthy = true) (hrole : req.role.truthy = true)
    (hfound : findUser (sameEmailCoerced env req.email) st.users.all = .ok (some allowed))
    (hbearer : notABearer env st.users req = .ok false)
    (htext : passwordText env req.password = .ok t) :
    (∀ stored, allowed.password = some stored →
      (((login env ctx st req).reply.status = 200 ∧
          (login env ctx st req).reply.credential =
            some (signToken env ctx.now req.email (normalRole req.role))) ↔
        env.sha256hex t = stored) ∧
      (env.sha256hex t ≠ stored →
        (login env ctx st req).reply = errorReply 401 "Invalid credentials" ∧
        (login env ctx st req).reply.credential = none)) ∧
    (allowed.password = none →
      (login env ctx st req).reply.status = 200 ∧
      (login env ctx st req).reply.credential =
        some (signToken env ctx.now req.email (normalRole req.role))) ∧
    (∀ s, passwordText env (.str s) = .ok s) ∧ passwordText env .undefined = .ok "" := by
  refine ⟨?_, ?_, login_password_text_str env, rfl⟩
  · intro stored hstored
    by_cases heq : env.sha256hex t = stored
    · have hacc : passwordAccepted env allowed req.password = .ok true := by
        simp [passwordAccepted, hstored, htext, heq]
      have hl : login env ctx st req =
          { store := st,
            reply := .sent { status := 200, body := .loggedIn req.email (normalRole req.role),
                             setCookie := some (signToken env ctx.now req.email
                               (normalRole req.role)) } } := by
        simp [login, hemail, hrole, hfound, hbearer, hacc]
      rw [hl]
      exact ⟨⟨fun _ => heq, fun _ => ⟨rfl, rfl⟩⟩, fun h => absurd heq h⟩
    · have hacc : passwordAccepted env allowed req.password = .ok false := by
        simp [passwordAccepted, hstored, htext]
        exact fun h => heq h.symm
      have hl : login env ctx st req =
          { store := st, reply := errorReply 401 "Invalid credentials" } := by
        simp [login, hemail, hrole, hfound, hbearer, hacc]
      rw [hl]
      refine ⟨⟨fun h => ?_, fun h => absurd h heq⟩, fun _ => ⟨rfl, rfl⟩⟩
      have h401 : (errorReply 401 "Invalid credentials").status = 401 := rfl
      have h200 := h.1
      simp only [] at h200
      rw [h401] at h200
      exact absurd h200 (by decide)
  · intro hnone
    have hacc : passwordAccepted env allowed req.password = .ok true := by
      simp [passwordAccepted, hnone]
    have hl : login env ctx st req =
        { store := st,
          reply := .sent { status := 200, body := .loggedIn req.email (normalRole req.role),
                           setCookie := some (signToken env ctx.now req.email
                             (normalRole req.role)) } } := by
      simp [login, hemail, hrole, hfound, hbearer, hacc]
    rw [hl]
    exact ⟨rfl, rfl⟩

theorem login_password_check_witness :
    (login demoEnv demoCtx storeWithOnboarded
      { email := .str "new@x.org", role := .str "member", password := .str "s3cr3t-pw" }
      ).reply.status = 200 :=
  (((login_password_check demoEnv demoCtx storeWithOnboarded
    { email := .str "new@x.org", role := .str "member", password := .str "s3cr3t-pw" }
    onboardedUser "s3cr3t-pw" rfl rfl rfl rfl rfl).1 _ rfl).1.2 rfl).1

/-! ## C5: onboarding followed by login -/

theorem findUser_all_false_of_none (p : User → Except String Bool) (l : List User)
    (h : findUser p l = .ok none) : ∀ u ∈ l, p u = .ok false := by
  induction l with
  | nil => intro u hu; exact absurd hu (List.not_mem_nil u)
  | cons v vs ih =>
    intro u hu
    rw [findUser] at h
    cases hv : p v with
    | error e => simp [hv] at h
    | ok b =>
      cases b with
      | true => simp [hv] at h
      | false =>
        simp only [hv] at h
        rcases List.mem_cons.1 hu with h1 | h1
        · rw [h1]; exact hv
        · exact ih h u h1

theorem findUser_append_hit (p : User → Except String Bool) (l₁ l₂ : List User) (u : User)
    (h₁ : ∀ v ∈ l₁, p v = .ok false) (hu : p u = .ok true) :
    findUser p (l₁ ++ u :: l₂) = .ok (some u) := by
  induction l₁ with
  | nil => simp [findUser, hu]
  | cons v vs ih =>
    have hv := h₁ v (List.mem_cons_self v vs)
    simp only [List.cons_append, findUser, hv]
    exact ih (fun w hw => h₁ w (List.mem_cons_of_mem v hw))

theorem findUser_coerced_none (env : Env) (email : JVal) (l : List User) (t : String)
    (hall : ∀ v ∈ l, v.email.isString = true) (ht : emailText env email = some t)
    (hno : ∀ u ∈ l, entryMatches env email u = false) :
    findUser (sameEmailCoerced env email) l = .ok none := by
  apply findUser_none
  intro u hu
  rw [sameEmailCoerced_of_string env email u t (hall u hu) ht, hno u hu]

theorem normalRole_of_not_bearer (role : JVal) (h : role.isStr "bearer" = false) :
    normalRole role = "member" := by
  simp [normalRole, h]

/-- A successful onboarding: the reply carries the temporary password and the
new entry goes to the list of its role. -/
theorem onboard_fresh (env : Env) (ctx : Ctx) (st : Store) (req : Request)
    (user : Claims) (t : String) (hauth : authMiddleware env ctx req = .ok user)
    (hbearer : user.role = "bearer") (hwf : st.users.stringEmails = true)
    (hemail : req.email.truthy = true) (htext : emailText env req.email = some t)
    (hfresh : ∀ u ∈ st.users.all, entryMatches env req.email u = false) :
    (onboard env ctx st req).reply =
      jsonReply (.onboarded req.email (normalRole req.role) (tempPasswordOf ctx.rand)) ∧
    (onboard env ctx st req).store =
      { st with users := addUser st.users (newUser env ctx req) } := by
  have hfind := findUser_coerced_none env req.email st.users.all t
    (fun v hv => stringEmails_mem st.users hwf v hv) htext hfresh
  rw [onboard, bearerOnly_of_bearer env ctx st req _ user hauth hbearer]
  simp only [onboardHandler, hemail, Bool.not_true, Bool.false_eq_true, if_false, hfind,
    tryIgnore_normal, and_self]

/-- The store left by a successful onboarding as member. -/
theorem onboard_fresh_member (env : Env) (ctx : Ctx) (st : Store) (req : Request)
    (user : Claims) (t : String) (hauth : authMiddleware env ctx req = .ok user)
    (hbearer : user.role = "bearer") (hwf : st.users.stringEmails = true)
    (hemail : req.email.truthy = true) (htext : emailText env req.email = some t)
    (hrole : req.role.isStr "bearer" = false)
    (hfresh : ∀ u ∈ st.users.all, entryMatches env req.email u = false) :
    (onboard env ctx st req).reply =
      jsonReply (.onboarded req.email "member" (tempPasswordOf ctx.rand)) ∧
    (onboard env ctx st req).store =
      { st with users := { st.users with
          members := st.users.members ++ [newUser env ctx req] } } := by
  obtain ⟨hreply, hstore⟩ :=
    onboard_fresh env ctx st req user t hauth hbearer hwf hemail htext hfresh
  have hnr := normalRole_of_not_bearer req.role hrole
  have hadd : addUser st.users (newUser env ctx req) =
      { st.users with members := st.users.members ++ [newUser env ctx req] } := by
    simp [addUser, newUser, hnr]
  exact ⟨by rw [hreply, hnr], by rw [hstore, hadd]⟩

/-- A member login for an address whose only matching entry is the one just
appended to the members list: the reply is decided by the password test on
that entry. -/
theorem login_appended_member (env : Env) (ctx : Ctx) (st : Store) (e : String)
    (nu : User) (q : JVal) (hwf : st.users.stringEmails = true) (hne : e ≠ "")
    (hnu : nu.email = .str e)
    (hfresh : ∀ u ∈ st.users.all, entryMatches env (.str e) u = false) :
    login env ctx
      { st with users := { st.users with members := st.users.members ++ [nu] } }
      { email := .str e, role := .str "member", password := q } =
    match passwordAccepted env nu q with
    | .error err =>
      { store := { st with users := { st.users with members := st.users.members ++ [nu] } },
        reply := .failed err }
    | .ok false =>
      { store := { st with users := { st.users with members := st.users.members ++ [nu] } },
        reply := errorReply 401 "Invalid credentials" }
    | .ok true =>
      { store := { st with users := { st.users with members := st.users.members ++ [nu] } },
        reply := .sent { status := 200, body := .loggedIn (.str e) "member",
                         setCookie := some (signToken env ctx.now (.str e) "member") } } := by
  have hself : sameEmailCoerced env (.str e) nu = .ok true := by
    simp [sameEmailCoerced, hnu, lowerOf, JVal.toStr]
  have hmem : ∀ v ∈ st.users.members, sameEmailCoerced env (.str e) v = .ok false := by
    intro v hv
    have hv' : v ∈ st.users.all := List.mem_append_left _ hv
    rw [sameEmailCoerced_of_string env (.str e) v e (stringEmails_mem st.users hwf v hv')
      (emailText_str env e), hfresh v hv']
  have hfind : findUser (sameEmailCoerced env (.str e))
      ((st.users.members ++ [nu]) ++ st.users.bearers) = .ok (some nu) := by
    rw [List.append_assoc]
    exact findUser_append_hit _ _ _ _ hmem hself
  have hroleF : (JVal.str "member").isStr "bearer" = false := by decide
  have hnr : normalRole (.str "member") = "member" := by decide
  have htr : (JVal.str e).truthy = true := by simp [JVal.truthy, hne]
  have htm : (JVal.str "member").truthy = true := by decide
  simp only [login, Users.all, hfind, notABearer, hroleF, hnr, htr, htm, Bool.not_true,
    Bool.or_self, Bool.false_eq_true, if_false]

/-- The temporary password has eight characters. -/
theorem tempPasswordOf_length (r : Bytes6) : (tempPasswordOf r).length = 8 := by
  simp [tempPasswordOf, encode3, String.length]

/-- After the chair onboards `new@x.org` as member and the response carries
the temporary password `AQIDBAUG`, a login whose password is the one-element
array `["AQIDBAUG"]`, a value other than that string, succeeds (the handler
hashes `String(password || '')`; the stand-in digest of `demoEnv` is
injective). -/
theorem login_array_password_accepted :
    (onboard demoEnv demoCtx seedStore onboardRequest).reply =
      jsonReply (.onboarded (.str "new@x.org") "member" "AQIDBAUG") ∧
    JVal.arr [.str "AQIDBAUG"] ≠ JVal.str "AQIDBAUG" ∧
    (login demoEnv demoCtx (onboard demoEnv demoCtx seedStore onboardRequest).store
      (newcomerLogin (.arr [.str "AQIDBAUG"]))).reply.status = 200 ∧
    (login demoEnv demoCtx (onboard demoEnv demoCtx seedStore onboardRequest).store
      (newcomerLogin (.arr [.str "AQIDBAUG"]))).reply.status ≠ 401 := by
  refine ⟨rfl, ?_, rfl, by decide⟩
  intro h
  cases h

/-- C5 (as amended): for every users registry (entries with string emails)
that does not contain the address `e`, after a bearer onboards `e` as member,
the response carries a temporary password `p` of eight characters; a login
with email `e`, role `member` and password `p` then succeeds and issues a
credential; and a login for `e` with a password that `String(password || '')`
converts to a text `t` succeeds exactly when the digest of `t` equals the
digest of `p`, and otherwise fails with 401 and no credential.  In
particular, if the digest is injective, every password whose text differs
from `p` is refused. -/
theorem onboard_then_login_round_trip (env : Env) (ctx : Ctx) (ctx' : Ctx) (st : Store)
    (req : Request) (user : Claims) (e : String)
    (hauth : authMiddleware env ctx req = .ok user) (hbearer : user.role = "bearer")
    (hwf : st.users.stringEmails = true) (he : req.email = .str e) (hne : e ≠ "")
    (hrole : req.role.isStr "bearer" = false)
    (hfresh : ∀ u ∈ st.users.all, entryMatches env (.str e) u = false) :
    (onboard env ctx st req).reply =
      jsonReply (.onboarded (.str e) "member" (tempPasswordOf ctx.rand)) ∧
    (tempPasswordOf ctx.rand).length = 8 ∧
    (login env ctx' (onboard env ctx st req).store
        { email := .str e, role := .str "member",
          password := .str (tempPasswordOf ctx.rand) }).reply =
      .sent { status := 200, body := .loggedIn (.str e) "member",
              setCookie := some (signToken env ctx'.now (.str e) "member") } ∧
    (∀ (q : JVal) (t : String), passwordText env q = .ok t →
      (env.sha256hex t = env.sha256hex (tempPasswordOf ctx.rand) →
        (login env ctx' (onboard env ctx st req).store
          { email := .str e, role := .str "member", password := q }).reply.status = 200) ∧
      (env.sha256hex t ≠ env.sha256hex (tempPasswordOf ctx.rand) →
        (login env ctx' (onboard env ctx st req).store
            { email := .str e, role := .str "member", password := q }).reply =
          errorReply 401 "Invalid credentials" ∧
        (login env ctx' (onboard env ctx st req).store
            { email := .str e, role := .str "member", password := q }).reply.credential =
          none)) ∧
    (Function.Injective env.sha256hex →
      ∀ (q : JVal) (t : String), passwordText env q = .ok t → t ≠ tempPasswordOf ctx.rand →
      (login env ctx' (onboard env ctx st req).store
          { email := .str e, role := .str "member", password := q }).reply =
        errorReply 401 "Invalid credentials") := by
  have htruthy : req.email.truthy = true := by simp [he, JVal.truthy, hne]
  have htext : emailText env req.email = some e := by rw [he]; rfl
  have hfresh' : ∀ u ∈ st.users.all, entryMatches env req.email u = false := by
    rw [he]; exact hfresh
  obtain ⟨hreply, hstore⟩ :=
    onboard_fresh_member env ctx st req user e hauth hbearer hwf htruthy htext hrole hfresh'
  have hnu : (newUser env ctx req).email = .str e := by simp [newUser, he]
  have hlogin := fun q => login_appended_member env ctx' st e (newUser env ctx req) q hwf hne
    hnu hfresh
  have hacc : ∀ q t, passwordText env q = .ok t →
      passwordAccepted env (newUser env ctx req) q =
        .ok (env.sha256hex (tempPasswordOf ctx.rand) == env.sha256hex t) := by
    intro q t hq; simp [passwordAccepted, newUser, hq]
  have hgood : ∀ q t, passwordText env q = .ok t →
      env.sha256hex t = env.sha256hex (tempPasswordOf ctx.rand) →
      (login env ctx' (onboard env ctx st req).store
        { email := .str e, role := .str "member", password := q }).reply =
      .sent { status := 200, body := .loggedIn (.str e) "member",
              setCookie := some (signToken env ctx'.now (.str e) "member") } := by
    intro q t hq hd
    rw [hstore, hlogin q, hacc q t hq]
    simp [hd]
  have hbad : ∀ q t, passwordText env q = .ok t →
      env.sha256hex t ≠ env.sha256hex (tempPasswordOf ctx.rand) →
      (login env ctx' (onboard env ctx st req).store
        { email := .str e, role := .str "member", password := q }).reply =
      errorReply 401 "Invalid credentials" := by
    intro q t hq hd
    rw [hstore, hlogin q, hacc q t hq]
    have : (env.sha256hex (tempPasswordOf ctx.rand) == env.sha256hex t) = false := by
      simp; exact fun h => hd h.symm
    simp [this]
  refine ⟨by rw [hreply, he], tempPasswordOf_length ctx.rand, ?_, ?_, ?_⟩
  · exact hgood _ _ (login_password_text_str env _) rfl
  · intro q t hq
    refine ⟨fun hd => by rw [hgood q t hq hd]; rfl, fun hd => ?_⟩
    rw [hbad q t hq hd]
    exact ⟨rfl, rfl⟩
  · intro hinj q t hq hne'
    exact hbad q t hq (fun h => hne' (hinj h))

theorem onboard_then_login_round_trip_witness :
    (onboard demoEnv demoCtx seedStore onboardRequest).reply =
      jsonReply (.onboarded (.str "new@x.org") "member" (tempPasswordOf demoCtx.rand)) ∧
    (login demoEnv demoCtx (onboard demoEnv demoCtx seedStore onboardRequest).store
        { email := .str "new@x.org", role := .str "member",
          password := .str (tempPasswordOf demoCtx.rand) }).reply =
      .sent { status := 200, body := .loggedIn (.str "new@x.org") "member",
              setCookie := some (signToken demoEnv demoCtx.now (.str "new@x.org") "member") } :=
  ⟨(onboard_then_login_round_trip demoEnv demoCtx demoCtx seedStore onboardRequest
      chairToken.claims "new@x.org" rfl rfl rfl rfl (by decide) rfl (by decide)).1,
   (onboard_then_login_round_trip demoEnv demoCtx demoCtx seedStore onboardRequest
      chairToken.claims "new@x.org" rfl rfl rfl rfl (by decide) rfl (by decide)).2.2.1⟩

/-! ## C6: onboarding an address that is already registered -/

/-- C6, evaluated at the failing input: the chair onboards the address
`["x@y.z"]` (a one-element array) on the seeded registry.  The first call
succeeds and line 231 stores the email as received, so the new entry carries
the array.  A second onboarding of the same email, and likewise an onboarding
of the address of the seeded chair, still in the bearers list, then reaches
the new entry in the lookup of line 227, where `u.email.toLowerCase()`
throws: the request ends with a `TypeError` (status 500), not with the 409
the claim requires, and the collections stay as the first call left them. -/
theorem onboard_array_email_breaks_conflict :
    seedUsers.stringEmails = true ∧
    (onboard demoEnv demoCtx seedStore arrayOnboardRequest).reply =
      jsonReply (.onboarded (.arr [.str "x@y.z"]) "member" "AQIDBAUG") ∧
    (onboard demoEnv demoCtx seedStore arrayOnboardRequest).store.users.members =
      seedUsers.members ++ [newUser demoEnv demoCtx arrayOnboardRequest] ∧
    (newUser demoEnv demoCtx arrayOnboardRequest).email = arrayOnboardRequest.email ∧
    (onboard demoEnv demoCtx (onboard demoEnv demoCtx seedStore arrayOnboardRequest).store
      arrayOnboardRequest).reply = .failed "TypeError" ∧
    (onboard demoEnv demoCtx (onboard demoEnv demoCtx seedStore arrayOnboardRequest).store
      arrayOnboardRequest).reply.status = 500 ∧
    (onboard demoEnv demoCtx seedStore arrayOnboardRequest).store.users.bearers =
      seedUsers.bearers ∧
    (∃ u ∈ seedUsers.bearers, entryMatches demoEnv chairOnboardRequest.email u = true) ∧
    (onboard demoEnv demoCtx (onboard demoEnv demoCtx seedStore arrayOnboardRequest).store
      chairOnboardRequest).reply = .failed "TypeError" ∧
    (onboard demoEnv demoCtx (onboard demoEnv demoCtx seedStore arrayOnboardRequest).store
      chairOnboardRequest).reply.status = 500 := by
  refine ⟨rfl, rfl, rfl, rfl, rfl, rfl, rfl, by decide, rfl, rfl⟩

theorem entryMatches_true_text (env : Env) (email : JVal) (u : User)
    (h : entryMatches env email u = true) : ∃ t, emailText env email = some t := by
  unfold entryMatches at h
  split at h
  · rename_i t _ ht
    exact ⟨t, ht⟩
  · exact absurd h (by decide)

/-- Onboarding an address that is already registered, on a registry whose
entries carry string emails: 409, nothing changes, no mail is sent. -/
theorem onboard_existing_conflict (env : Env) (ctx : Ctx) (st : Store) (req : Request)
    (user : Claims) (hauth : authMiddleware env ctx req = .ok user)
    (hbearer : user.role = "bearer") (hwf : st.users.stringEmails = true)
    (hemail : req.email.truthy = true)
    (hex : ∃ u ∈ st.users.all, entryMatches env req.email u = true) :
    onboard env ctx st req = { store := st, reply := errorReply 409 "User already exists" } := by
  obtain ⟨t, ht⟩ : ∃ t, emailText env req.email = some t := by
    obtain ⟨u, -, hu⟩ := hex
    exact entryMatches_true_text env req.email u hu
  obtain ⟨a, ha⟩ := findUser_coerced_found env req.email st.users.all t
    (fun v hv => stringEmails_mem st.users hwf v hv) ht hex
  rw [onboard, bearerOnly_of_bearer env ctx st req _ user hauth hbearer]
  simp [onboardHandler, hemail, ha]

/-- The registry after `addUser` holds the old entries and the new one. -/
theorem addUser_all_perm (users : Users) (u : User) :
    (addUser users u).all.Perm (users.all ++ [u]) := by
  unfold addUser Users.all
  split
  · simp
  · simp only [List.append_assoc]
    exact List.Perm.append_left _ List.perm_append_comm

/-- An onboarding request either leaves the registry as it was or adds the
new entry after a lookup that found no entry with its address. -/
theorem onboard_users_cases (env : Env) (ctx : Ctx) (st : Store) (req : Request) :
    (onboard env ctx st req).store = st ∨
    ((onboard env ctx st req).store =
        { st with users := addUser st.users (newUser env ctx req) } ∧
      findUser (sameEmailCoerced env req.email) st.users.all = .ok none) := by
  unfold onboard bearerOnly
  split
  · exact Or.inl rfl
  · split
    · exact Or.inl rfl
    · unfold onboardHandler
      split
      · exact Or.inl rfl
      · split
        · exact Or.inl rfl
        · exact Or.inl rfl
        · rename_i hnone
          refine Or.inr ⟨?_, hnone⟩
          simp only [tryIgnore_normal]

theorem sameEmailCoerced_false_key (env : Env) (email : JVal) (u : User)
    (h : sameEmailCoerced env email u = .ok false) :
    ∃ s t, u.email = .str s ∧ email.toStr env.numberText = .ok t ∧
      env.toLowerCase s ≠ env.toLowerCase t := by
  unfold sameEmailCoerced at h
  cases hu : u.email <;> simp [lowerOf, hu] at h
  rename_i s
  cases ht : email.toStr env.numberText with
  | error e => simp [ht] at h
  | ok t =>
    simp [ht] at h
    exact ⟨s, t, rfl, rfl, h⟩

/-- Uniqueness of emails is preserved by every onboarding request. -/
theorem onboard_preserves_uniqueEmails (env : Env) (ctx : Ctx) (st : Store) (req : Request)
    (huniq : st.users.uniqueEmails env) :
    (onboard env ctx st req).store.users.uniqueEmails env := by
  rcases onboard_users_cases env ctx st req with h | ⟨h, hnone⟩
  · rw [h]; exact huniq
  · rw [h]
    have hperm := (addUser_all_perm st.users (newUser env ctx req)).map (emailKey env)
    unfold Users.uniqueEmails
    simp only []
    rw [hperm.nodup_iff, List.map_append, List.map_singleton, List.nodup_append]
    refine ⟨huniq, List.nodup_singleton _, ?_⟩
    rw [List.disjoint_singleton]
    intro hmem
    obtain ⟨u, hu, hk⟩ := List.mem_map.1 hmem
    obtain ⟨s, t, hs, ht, hne⟩ :=
      sameEmailCoerced_false_key env req.email u (findUser_all_false_of_none _ _ hnone u hu)
    have hnew : (newUser env ctx req).email = req.email := rfl
    simp only [emailKey, hs, hnew] at hk
    cases he : req.email <;> simp [he] at hk
    rename_i e
    rw [he] at ht
    simp only [JVal.toStr, Except.ok.injEq] at ht
    rw [ht] at hk
    exact hne hk

theorem filter_entryMatches_nil (env : Env) (email : JVal) (l : List User)
    (h : ∀ u ∈ l, entryMatches env email u = false) :
    l.filter (entryMatches env email) = [] := by
  rw [List.filter_eq_nil_iff]
  intro u hu
  simp [h u hu]

/-- After `addUser`, the entries matching a fresh address are the new entry
alone. -/
theorem addUser_filter (env : Env) (users : Users) (nu : User) (e : String)
    (hnu : nu.email = .str e)
    (hfresh : ∀ u ∈ users.all, entryMatches env (.str e) u = false) :
    (addUser users nu).all.filter (entryMatches env (.str e)) = [nu] := by
  have hm := filter_entryMatches_nil env (.str e) users.members
    (fun u hu => hfresh u (List.mem_append_left _ hu))
  have hb := filter_entryMatches_nil env (.str e) users.bearers
    (fun u hu => hfresh u (List.mem_append_right _ hu))
  have hself : entryMatches env (.str e) nu = true := by
    simp [entryMatches, hnu, emailText_str]
  unfold addUser Users.all
  split <;> simp [List.filter_append, hm, hb, List.filter_cons, hself]

/-- After `addUser` of an entry with a string email, all entries still carry
string emails. -/
theorem addUser_stringEmails (users : Users) (nu : User) (h : users.stringEmails = true)
    (hnu : nu.email.isString = true) : (addUser users nu).stringEmails = true := by
  simp only [Users.stringEmails, List.all_eq_true] at h ⊢
  intro u hu
  have := (addUser_all_perm users nu).mem_iff.1 hu
  rcases List.mem_append.1 this with h1 | h1
  · exact h u h1
  · rw [List.mem_singleton.1 h1]; exact hnu

/-- The part of C6 the code satisfies: for every users registry whose entries
carry string emails and every bearer-authorised onboarding request that
supplies an email, (1) if the email equals, ignoring case, the email of an
entry of the members or bearers list, the reply is 409 and the collections
are unchanged (and no mail is sent); (2) if emails are unique, ignoring case,
across both lists before an onboarding request, they are unique after it (for
every request whatsoever); (3) if the string address `e` is not yet
registered, then after it is onboarded a second bearer-authorised onboarding
of the same address (ignoring case) is answered 409, leaves the collections
as the first call left them, and the first call's user is the only entry with
that address. -/
theorem onboard_conflict_and_uniqueness (env : Env) (ctx : Ctx) (st : Store) (req : Request)
    (user : Claims) (hauth : authMiddleware env ctx req = .ok user)
    (hbearer : user.role = "bearer") (hwf : st.users.stringEmails = true)
    (hemail : req.email.truthy = true) :
    ((∃ u ∈ st.users.all, entryMatches env req.email u = true) →
      onboard env ctx st req =
        { store := st, reply := errorReply 409 "User already exists" }) ∧
    (∀ (c : Ctx) (r : Request), st.users.uniqueEmails env →
      (onboard env c st r).store.users.uniqueEmails env) ∧
    (∀ (e : String) (ctx2 : Ctx) (req2 : Request) (user2 : Claims),
      req.email = .str e →
      (∀ u ∈ st.users.all, entryMatches env (.str e) u = false) →
      authMiddleware env ctx2 req2 = .ok user2 → user2.role = "bearer" →
      req2.email.truthy = true →
      (∃ t, emailText env req2.email = some t ∧ env.toLowerCase t = env.toLowerCase e) →
      onboard env ctx2 (onboard env ctx st req).store req2 =
        { store := (onboard env ctx st req).store,
          reply := errorReply 409 "User already exists" } ∧
      (onboard env ctx2 (onboard env ctx st req).store req2).store.users.all.filter
          (entryMatches env (.str e)) = [newUser env ctx req]) := by
  refine ⟨onboard_existing_conflict env ctx st req user hauth hbearer hwf hemail,
    fun c r => onboard_preserves_uniqueEmails env c st r, ?_⟩
  intro e ctx2 req2 user2 he hfresh hauth2 hbearer2 hemail2 hsame
  obtain ⟨t, ht, hlow⟩ := hsame
  have hfresh' : ∀ u ∈ st.users.all, entryMatches env req.email u = false := by
    rw [he]; exact hfresh
  have htext : emailText env req.email = some e := by rw [he]; rfl
  obtain ⟨-, hstore⟩ :=
    onboard_fresh env ctx st req user e hauth hbearer hwf hemail htext hfresh'
  have hnu : (newUser env ctx req).email = .str e := by simp [newUser, he]
  have hwf1 : (onboard env ctx st req).store.users.stringEmails = true := by
    rw [hstore]
    exact addUser_stringEmails st.users _ hwf (by rw [hnu]; rfl)
  have hin : newUser env ctx req ∈ (onboard env ctx st req).store.users.all := by
    rw [hstore]
    exact (addUser_all_perm st.users _).mem_iff.2 (List.mem_append_right _ (List.mem_singleton_self _))
  have hmatch : entryMatches env req2.email (newUser env ctx req) = true := by
    simp [entryMatches, hnu, ht, hlow]
  have h409 := onboard_existing_conflict env ctx2 (onboard env ctx st req).store req2 user2
    hauth2 hbearer2 hwf1 hemail2 ⟨_, hin, hmatch⟩
  refine ⟨h409, ?_⟩
  rw [h409]
  simp only []
  rw [hstore]
  exact addUser_filter env st.users _ e hnu hfresh

theorem onboard_conflict_and_uniqueness_witness :
    seedUsers.uniqueEmails demoEnv ∧
    (onboard demoEnv demoCtx seedStore onboardRequest).store.users.uniqueEmails demoEnv ∧
    onboard demoEnv demoCtx (onboard demoEnv demoCtx seedStore onboardRequest).store
        repeatedOnboardRequest =
      { store := (onboard demoEnv demoCtx seedStore onboardRequest).store,
        reply := errorReply 409 "User already exists" } :=
  ⟨by decide,
   (onboard_conflict_and_uniqueness demoEnv demoCtx seedStore onboardRequest
      chairToken.claims rfl rfl rfl rfl).2.1 demoCtx onboardRequest (by decide),
   ((onboard_conflict_and_uniqueness demoEnv demoCtx seedStore onboardRequest
      chairToken.claims rfl rfl rfl rfl).2.2 "new@x.org" demoCtx repeatedOnboardRequest
      chairToken.claims rfl (by decide) rfl rfl rfl ⟨"NEW@X.ORG", rfl, by decide⟩).1⟩

/-! ## C7: deleting a team member that does not exist -/

theorem findIndex_eq_none {α : Type} (p : α → Bool) (l : List α)
    (h : ∀ x ∈ l, p x = false) : findIndex p l = none := by
  induction l with
  | nil => rfl
  | cons x xs ih =>
    simp only [findIndex, h x (List.mem_cons_self x xs), Bool.false_eq_true, if_false,
      ih (fun y hy => h y (List.mem_cons_of_mem x hy)), Option.map_none']

/-- C7: for every stored team list and every bearer-authorised
`DELETE /api/team/:id` whose id, converted to a number, equals the numeric id
of no stored record (in particular an id that is not a number): the reply is
404, the collections, and so the team list in length and contents, are
unchanged, `broadcast` is not called and no stream receives a frame. -/
theorem deleteTeam_unknown_id (env : Env) (ctx : Ctx) (clients : List Client) (st : Store)
    (req : Request) (user : Claims) (hauth : authMiddleware env ctx req = .ok user)
    (hbearer : user.role = "bearer")
    (hno : (∀ t ∈ st.team, env.toNumber req.idParam ≠ some (t.id : Int)) ∨
      env.toNumber req.idParam = none) :
    (deleteTeam env ctx clients st req).reply = errorReply 404 "Not found" ∧
    (deleteTeam env ctx clients st req).reply.status = 404 ∧
    (deleteTeam env ctx clients st req).store = st ∧
    (deleteTeam env ctx clients st req).store.team = st.team ∧
    (deleteTeam env ctx clients st req).store.team.length = st.team.length ∧
    (deleteTeam env ctx clients st req).effects.broadcasts = [] ∧
    (deleteTeam env ctx clients st req).effects.delivered = [] := by
  have hall : ∀ t ∈ st.team, idMatches (env.toNumber req.idParam) t = false := by
    intro t ht
    rcases hno with h | h
    · simpa [idMatches] using h t ht
    · simp [idMatches, h]
  have hl : deleteTeam env ctx clients st req =
      { store := st, reply := errorReply 404 "Not found" } := by
    rw [deleteTeam, bearerOnly_of_bearer env ctx st req _ user hauth hbearer]
    simp [findIndex_eq_none _ _ hall]
  rw [hl]
  exact ⟨rfl, rfl, rfl, rfl, rfl, rfl, rfl⟩

theorem deleteTeam_unknown_id_witness :
    (deleteTeam demoEnv demoCtx [] teamStore (deleteRequest "not-a-number")).reply =
      errorReply 404 "Not found" ∧
    (deleteTeam demoEnv demoCtx [] teamStore (deleteRequest "17")).store.team = demoTeam :=
  ⟨(deleteTeam_unknown_id demoEnv demoCtx [] teamStore (deleteRequest "not-a-number")
      chairToken.claims rfl rfl (Or.inr rfl)).1,
   (deleteTeam_unknown_id demoEnv demoCtx [] teamStore (deleteRequest "17")
      chairToken.claims rfl rfl (Or.inl (by decide))).2.2.2.1⟩

/-! ## C8: every mutation is bearer-only -/

/-- C8: for each of the six write endpoints and every request whose verified
credential has a role other than `bearer`, the reply is 403 `Forbidden`, the
users, events, team and achievements collections are unchanged, `broadcast`
is not called, no stream receives a frame and no mail is sent. -/
theorem write_routes_require_bearer (env : Env) (ctx : Ctx) (clients : List Client)
    (st : Store) (route : Route) (req : Request) (user : Claims)
    (hwrite : route.isWrite = true)
    (hauth : authMiddleware env ctx req = .ok user) (hrole : user.role ≠ "bearer") :
    (handle env ctx clients st route req).reply = errorReply 403 "Forbidden" ∧
    (handle env ctx clients st route req).reply.status = 403 ∧
    (handle env ctx clients st route req).store = st ∧
    (handle env ctx clients st route req).effects.broadcasts = [] ∧
    (handle env ctx clients st route req).effects.delivered = [] ∧
    (handle env ctx clients st route req).effects.mails = [] := by
  have hl : handle env ctx clients st route req =
      { store := st, reply := errorReply 403 "Forbidden" } := by
    cases route <;> simp [Route.isWrite] at hwrite <;>
      simp only [handle, postEvents, postTeam, putTeam, deleteTeam, onboard, postAchievements] <;>
      exact bearerOnly_of_not_bearer env ctx st req _ user hauth hrole
  rw [hl]
  exact ⟨rfl, rfl, rfl, rfl, rfl, rfl⟩

theorem write_routes_require_bearer_witness :
    (handle demoEnv demoCtx [] seedStore .postEvents memberEventRequest).reply =
      errorReply 403 "Forbidden" ∧
    (handle demoEnv demoCtx [] seedStore .postEvents memberEventRequest).store = seedStore :=
  ⟨(write_routes_require_bearer demoEnv demoCtx [] seedStore .postEvents memberEventRequest
      memberToken.claims rfl rfl (by decide)).1,
   (write_routes_require_bearer demoEnv demoCtx [] seedStore .postEvents memberEventRequest
      memberToken.claims rfl rfl (by decide)).2.2.1⟩

/-! ## C9: the broadcast hub -/

theorem writeAll_delivered (payload : String) (clients : List Client) :
    writeAll payload clients =
      (clients.filter (fun c => c.behaviour == .accepts)).map (fun c => (c.id, payload)) := by
  induction clients with
  | nil => rfl
  | cons c cs ih =>
    rw [writeAll]
    cases hb : c.behaviour <;> simp [hb, ih, List.filter_cons]

/-- A valid team-create request appends the new record and answers with it,
whatever the registered streams do. -/
theorem postTeam_success (env : Env) (ctx : Ctx) (clients : List Client) (st : Store)
    (req : Request) (user : Claims)
    (hauth : authMiddleware env ctx req = .ok user) (hrole : user.role = "bearer")
    (hname : req.name.truthy = true) (hposition : req.position.truthy = true) :
    (postTeam env ctx clients st req).reply = jsonReply (.member (newMember ctx req)) ∧
    (postTeam env ctx clients st req).store =
      { st with team := st.team ++ [newMember ctx req] } := by
  rw [postTeam, bearerOnly_of_bearer env ctx st req _ user hauth hrole]
  simp [hname, hposition]

/-- The frame written by `broadcast` is not the text the claim quotes, which
has a blank before `data:`: an accepting stream receives
`event: team:update\ndata: ...\n\n`. -/
theorem broadcast_frame_differs_from_spec :
    frame demoEnv "team:update" (.removedId none) =
      "event: team:update\ndata: removed#none\n\n" ∧
    specFrame demoEnv "team:update" (.removedId none) =
      "event: team:update\n data: removed#none\n\n" ∧
    broadcast demoEnv oneAccepting "team:update" (.removedId none) =
      [(1, "event: team:update\ndata: removed#none\n\n")] ∧
    broadcast demoEnv oneAccepting "team:update" (.removedId none) ≠
      [(1, specFrame demoEnv "team:update" (.removedId none))] := by
  refine ⟨rfl, rfl, rfl, by decide⟩

/-- C9 (as amended): for every list of registered handles, every event name
and every payload, `broadcast` builds the frame
`event: <name>\ndata: <json>\n\n` (no blank before `data:`) and writes it to
every registered handle, in registration order; the handles whose write fails
are skipped: every handle whose write succeeds receives the frame, what the
handles receive is the same as if the failing handles were not registered,
and the failure does not reach the caller (a valid team creation is answered
with the new record whatever the handles do). -/
theorem broadcast_fanout (env : Env) (clients : List Client) (event : String)
    (data : Payload) :
    frame env event data = "event: " ++ event ++ "\ndata: " ++ env.stringify data ++ "\n\n" ∧
    broadcast env clients event data =
      (clients.filter (fun c => c.behaviour == .accepts)).map
        (fun c => (c.id, frame env event data)) ∧
    (∀ c ∈ clients, c.behaviour = .accepts →
      (c.id, frame env event data) ∈ broadcast env clients event data) ∧
    broadcast env clients event data =
      broadcast env (clients.filter (fun c => c.behaviour == .accepts)) event data ∧
    (∀ (ctx : Ctx) (st : Store) (req : Request) (user : Claims),
      authMiddleware env ctx req = .ok user → user.role = "bearer" →
      req.name.truthy = true → req.position.truthy = true →
      (postTeam env ctx clients st req).reply = jsonReply (.member (newMember ctx req)) ∧
      (postTeam env ctx clients st req).effects.delivered =
        broadcast env clients "team:update" (.member (newMember ctx req))) := by
  have hframe : frame env event data =
      "event: " ++ event ++ "\ndata: " ++ env.stringify data ++ "\n\n" := by
    simp only [frame, String.append_assoc]
    rfl
  have hdel : broadcast env clients event data =
      (clients.filter (fun c => c.behaviour == .accepts)).map
        (fun c => (c.id, frame env event data)) := writeAll_delivered _ _
  refine ⟨hframe, hdel, ?_, ?_, ?_⟩
  · intro c hc hacc
    rw [hdel]
    exact List.mem_map.2 ⟨c, List.mem_filter.2 ⟨hc, by simp [hacc]⟩, rfl⟩
  · rw [hdel, broadcast, writeAll_delivered, List.filter_filter]
    simp
  · intro ctx st req user hauth hrole hname hposition
    refine ⟨(postTeam_success env ctx clients st req user hauth hrole hname hposition).1, ?_⟩
    rw [postTeam, bearerOnly_of_bearer env ctx st req _ user hauth hrole]
    simp [hname, hposition]

theorem broadcast_fanout_witness :
    broadcast demoEnv acceptDropAccept "team:update" (.removedId none) =
      [(1, "event: team:update\ndata: removed#none\n\n"),
       (3, "event: team:update\ndata: removed#none\n\n")] ∧
    (postTeam demoEnv demoCtx acceptDropAccept seedStore teamRequest).reply =
      jsonReply (.member (newMember demoCtx teamRequest)) :=
  ⟨(broadcast_fanout demoEnv acceptDropAccept "team:update" (.removedId none)).2.1,
   ((broadcast_fanout demoEnv acceptDropAccept "team:update" (.removedId none)).2.2.2.2
      demoCtx seedStore teamRequest chairToken.claims rfl rfl rfl rfl).1⟩

/-! ## C10: lifetime of a credential -/

/-- A credential issued by login is `signToken` of the request's email and the
normalised role at the instant of the handler. -/
theorem login_credential (env : Env) (ctx : Ctx) (st : Store) (req : Request) (tok : Jwt)
    (h : (login env ctx st req).reply.credential = some tok) :
    tok = signToken env ctx.now req.email (normalRole req.role) := by
  unfold login at h
  split at h
  · simp [errorReply, Reply.credential] at h
  · split at h
    · simp [Reply.credential] at h
    · simp [errorReply, Reply.credential] at h
    · split at h
      · simp [Reply.credential] at h
      · simp [errorReply, Reply.credential] at h
      · split at h
        · simp [Reply.credential] at h
        · simp [errorReply, Reply.credential] at h
        · simp only [Reply.credential, Option.some.injEq] at h
          exact h.symm

/-- A protected route whose authentication fails replies what the middleware
replies and touches nothing. -/
theorem handle_protected_auth_error (env : Env) (ctx : Ctx) (clients : List Client)
    (st : Store) (route : Route) (req : Request) (r : Reply)
    (hprot : route.isProtected = true) (hauth : authMiddleware env ctx req = .error r) :
    handle env ctx clients st route req = { store := st, reply := r } := by
  cases route <;> simp [Route.isProtected] at hprot <;>
    simp [handle, me, postEvents, postTeam, putTeam, deleteTeam, onboard, postAchievements,
      bearerOnly, hauth]

/-- The token a request presents when it carries `tok` as cookie, or as
authorization header without a cookie. -/
theorem presentedToken_of_carried (req : Request) (tok : Jwt)
    (h : req.cookieToken = some (.jwt tok) ∨
      (req.cookieToken = none ∧ req.authorization = some (.jwt tok))) :
    presentedToken req = .jwt tok := by
  rcases h with h | ⟨h1, h2⟩
  · simp [presentedToken, h, Wire.truthy]
  · simp [presentedToken, headerToken, h1, h2]

/-- C10: for every credential `tok` issued by a login handled at instant `T`
(`ctx.now`, in milliseconds): (1) its payload is the login's email and role,
issued at `floor(T/1000)` and expiring seven days later; (2) at `T + 1s`
`authMiddleware` accepts a request carrying it and yields that payload, which
`GET /api/auth/me` returns; (3) once the clock has passed `T + 7 days`, every
protected route answers a request carrying it with 401 `Invalid token` and
touches nothing; (4) a request carrying no token at all is answered 401
`Unauthorized` by every protected route. -/
theorem credential_lifetime (env : Env) (ctx : Ctx) (st : Store) (req : Request) (tok : Jwt)
    (hissued : (login env ctx st req).reply.credential = some tok) :
    (tok.claims.email = req.email ∧ tok.claims.role = normalRole req.role ∧
      tok.claims.iat = ctx.now / 1000 ∧ tok.claims.exp = ctx.now / 1000 + sevenDays) ∧
    (∀ (ctx' : Ctx) (st' : Store) (req' : Request),
      (req'.cookieToken = some (.jwt tok) ∨
        (req'.cookieToken = none ∧ req'.authorization = some (.jwt tok))) →
      ctx'.verifyNow = ctx.now + 1000 →
      authMiddleware env ctx' req' = .ok tok.claims ∧
      (me env ctx' st' req').reply = jsonReply (.me tok.claims)) ∧
    (∀ (ctx' : Ctx) (clients : List Client) (st' : Store) (route : Route) (req' : Request),
      route.isProtected = true →
      (req'.cookieToken = some (.jwt tok) ∨
        (req'.cookieToken = none ∧ req'.authorization = some (.jwt tok))) →
      ctx.now + sevenDaysMs < ctx'.verifyNow →
      handle env ctx' clients st' route req' =
        { store := st', reply := errorReply 401 "Invalid token" }) ∧
    (∀ (ctx' : Ctx) (clients : List Client) (st' : Store) (route : Route) (req' : Request),
      route.isProtected = true → req'.cookieToken = none → req'.authorization = none →
      handle env ctx' clients st' route req' =
        { store := st', reply := errorReply 401 "Unauthorized" }) := by
  have htok := login_credential env ctx st req tok hissued
  have hclaims : tok.claims.email = req.email ∧ tok.claims.role = normalRole req.role ∧
      tok.claims.iat = ctx.now / 1000 ∧ tok.claims.exp = ctx.now / 1000 + sevenDays := by
    rw [htok]; exact ⟨rfl, rfl, rfl, rfl⟩
  have hkey : tok.key = env.jwtSecret := by rw [htok]; rfl
  refine ⟨hclaims, ?_, ?_, ?_⟩
  · intro ctx' st' req' hcarried hnow
    have hp := presentedToken_of_carried req' tok hcarried
    have hlt : ctx'.verifyNow / 1000 < tok.claims.exp := by
      rw [hclaims.2.2.2, hnow, sevenDays]
      omega
    have hauth : authMiddleware env ctx' req' = .ok tok.claims := by
      simp [authMiddleware, hp, Wire.truthy, jwtVerify, hkey, hlt]
    exact ⟨hauth, by simp [me, hauth]⟩
  · intro ctx' clients st' route req' hprot hcarried hnow
    have hp := presentedToken_of_carried req' tok hcarried
    have hge : ¬ ctx'.verifyNow / 1000 < tok.claims.exp := by
      rw [hclaims.2.2.2]
      simp only [sevenDaysMs, sevenDays] at hnow ⊢
      omega
    have hauth : authMiddleware env ctx' req' = .error (errorReply 401 "Invalid token") := by
      simp [authMiddleware, hp, Wire.truthy, jwtVerify, hge]
    exact handle_protected_auth_error env ctx' clients st' route req' _ hprot hauth
  · intro ctx' clients st' route req' hprot hcookie hheader
    have hauth : authMiddleware env ctx' req' = .error (errorReply 401 "Unauthorized") := by
      simp [authMiddleware, presentedToken, headerToken, hcookie, hheader, Wire.truthy]
    exact handle_protected_auth_error env ctx' clients st' route req' _ hprot hauth

theorem credential_lifetime_witness :
    (login demoEnv demoCtx seedStore chairLogin).reply.credential =
      some (signToken demoEnv demoCtx.now (.str "chair@s.smvitm.ac.in") "bearer") ∧
    authMiddleware demoEnv { demoCtx with verifyNow := demoCtx.now + 1000 }
        { cookieToken := some (.jwt (signToken demoEnv demoCtx.now
            (.str "chair@s.smvitm.ac.in") "bearer")) } =
      .ok (signToken demoEnv demoCtx.now (.str "chair@s.smvitm.ac.in") "bearer").claims ∧
    handle demoEnv { demoCtx with verifyNow := demoCtx.now + sevenDaysMs + 1 } [] seedStore
        .postTeam
        { cookieToken := some (.jwt (signToken demoEnv demoCtx.now
            (.str "chair@s.smvitm.ac.in") "bearer")) } =
      { store := seedStore, reply := errorReply 401 "Invalid token" } :=
  ⟨rfl,
   ((credential_lifetime demoEnv demoCtx seedStore chairLogin _ rfl).2.1
      { demoCtx with verifyNow := demoCtx.now + 1000 } seedStore
      { cookieToken := some (.jwt (signToken demoEnv demoCtx.now
          (.str "chair@s.smvitm.ac.in") "bearer")) } (Or.inl rfl) rfl).1,
   (credential_lifetime demoEnv demoCtx seedStore chairLogin _ rfl).2.2.1
      { demoCtx with verifyNow := demoCtx.now + sevenDaysMs + 1 } [] seedStore .postTeam
      { cookieToken := some (.jwt (signToken demoEnv demoCtx.now
          (.str "chair@s.smvitm.ac.in") "bearer")) } rfl (Or.inl rfl) (by decide)⟩

/-! ## C11: mail failures -/

/-- The messages handed to the transport by the event handler do not depend
on what the transport then does. -/
theorem eventMailBlock_mails (env : Env) (ctx : Ctx) (users : Users) (req : Request)
    (photos : List Photo) (m₁ m₂ : MailResult) :
    (eventMailBlock env (ctx.withMail m₁) users req photos).2 =
      (eventMailBlock env (ctx.withMail m₂) users req photos).2 := by
  unfold eventMailBlock
  split
  · rfl
  · split
    · split <;> rfl
    · rfl

/-- The messages handed to the transport by the onboarding handler do not
depend on what the transport then does. -/
theorem onboardMailBlock_mails (env : Env) (ctx : Ctx) (req : Request) (m₁ m₂ : MailResult) :
    (onboardMailBlock env (ctx.withMail m₁) req).2 =
      (onboardMailBlock env (ctx.withMail m₂) req).2 := by
  have h : ∀ m, onboardMail env (ctx.withMail m) req = onboardMail env ctx req := fun _ => rfl
  unfold onboardMailBlock
  rw [h m₁, h m₂]
  split <;> rfl

/-- The event handler does the same whatever the mail transport does. -/
theorem createEvent_mail_irrelevant (env : Env) (ctx : Ctx) (clients : List Client)
    (st : Store) (user : Claims) (req : Request) (m₁ m₂ : MailResult) :
    createEvent env (ctx.withMail m₁) clients st user req =
      createEvent env (ctx.withMail m₂) clients st user req := by
  have hev : ∀ m, newEvent env (ctx.withMail m) user req = newEvent env ctx user req :=
    fun _ => rfl
  simp only [createEvent, tryIgnore_normal, hev]
  rw [eventMailBlock_mails env ctx st.users req (newEvent env ctx user req).photos m₁ m₂]

/-- The onboarding handler does the same whatever the mail transport does. -/
theorem onboardHandler_mail_irrelevant (env : Env) (ctx : Ctx) (st : Store) (req : Request)
    (m₁ m₂ : MailResult) :
    onboardHandler env (ctx.withMail m₁) st req = onboardHandler env (ctx.withMail m₂) st req := by
  have hnu : ∀ m, newUser env (ctx.withMail m) req = newUser env ctx req := fun _ => rfl
  have hrand : ∀ m, (ctx.withMail m).rand = ctx.rand := fun _ => rfl
  simp only [onboardHandler, tryIgnore_normal, hnu, hrand]
  rw [onboardMailBlock_mails env ctx req m₁ m₂]

/-- A valid event submission is answered with the new event. -/
theorem postEvents_success (env : Env) (ctx : Ctx) (clients : List Client)
    (st : Store) (req : Request) (user : Claims)
    (hauth : authMiddleware env ctx req = .ok user) (hrole : user.role = "bearer")
    (htitle : req.title.truthy = true) (hdate : req.date.truthy = true)
    (hvenue : req.venue.truthy = true)
    (hcount : req.files.length ≤ 10) (hfield : ∀ f ∈ req.files, f.fieldname = "photos") :
    (postEvents env ctx clients st req).reply = jsonReply (.event (newEvent env ctx user req)) := by
  have hgate : multerAccepts "photos" 10 req.files = true :=
    (multerAccepts_iff _ _ _).2 ⟨hfield, hcount⟩
  rw [postEvents, bearerOnly_of_bearer env ctx st req _ user hauth hrole]
  simp only [hgate, if_true, createEvent, htitle, hdate, hvenue, Bool.not_true, Bool.or_self,
    Bool.false_eq_true, if_false, tryIgnore_normal]

/-- C11: a mail failure never fails the request.  For every event submission
and every onboarding request, the reply, the persisted collections and the
effects are the same whether `sendMail` resolves, rejects or throws; for a
valid bearer-authorised event submission the reply is the 200 response
carrying the new event, and for a valid bearer-authorised onboarding of a
fresh address (one that `String` converts) it is the 200 response carrying
the temporary password, whatever the mail transport does. -/
theorem mail_failure_never_fails_request (env : Env) (ctx : Ctx) (clients : List Client)
    (st : Store) (req : Request) (user : Claims) (m : MailResult)
    (hauth : authMiddleware env ctx req = .ok user) (hrole : user.role = "bearer") :
    (∀ m' : MailResult,
      postEvents env (ctx.withMail m) clients st req =
        postEvents env (ctx.withMail m') clients st req) ∧
    (∀ m' : MailResult,
      onboard env (ctx.withMail m) st req = onboard env (ctx.withMail m') st req) ∧
    (req.title.truthy = true → req.date.truthy = true → req.venue.truthy = true →
      req.files.length ≤ 10 → (∀ f ∈ req.files, f.fieldname = "photos") →
      (postEvents env (ctx.withMail m) clients st req).reply =
          jsonReply (.event (newEvent env ctx user req)) ∧
      (postEvents env (ctx.withMail m) clients st req).store.events =
          st.events ++ [newEvent env ctx user req]) ∧
    (st.users.stringEmails = true → req.email.truthy = true →
      (∃ t, emailText env req.email = some t) →
      (∀ u ∈ st.users.all, entryMatches env req.email u = false) →
      (onboard env (ctx.withMail m) st req).reply =
          jsonReply (.onboarded req.email (normalRole req.role) (tempPasswordOf ctx.rand)) ∧
      (onboard env (ctx.withMail m) st req).store =
          { st with users := addUser st.users (newUser env ctx req) }) := by
  have hauth' : ∀ m', authMiddleware env (ctx.withMail m') req = .ok user := fun _ => hauth
  refine ⟨fun m' => ?_, fun m' => ?_, ?_, ?_⟩
  · simp only [postEvents, bearerOnly, hauth' m, hauth' m']
    split
    · rfl
    · split
      · exact createEvent_mail_irrelevant env ctx clients st user req m m'
      · rfl
  · simp only [onboard, bearerOnly, hauth' m, hauth' m']
    split
    · rfl
    · exact onboardHandler_mail_irrelevant env ctx st req m m'
  · intro htitle hdate hvenue hcount hfield
    have hrun : postEvents env (ctx.withMail m) clients st req =
        createEvent env (ctx.withMail m) clients st user req := by
      rw [postEvents, bearerOnly_of_bearer env _ st req _ user (hauth' m) hrole]
      simp [(multerAccepts_iff _ _ _).2 ⟨hfield, hcount⟩]
    refine ⟨postEvents_success env (ctx.withMail m) clients st req user (hauth' m) hrole
      htitle hdate hvenue hcount hfield, ?_⟩
    rw [hrun, createEvent_store env _ clients st user req htitle hdate hvenue]
    rfl
  · intro hwf hemail htext hfresh
    obtain ⟨t, ht⟩ := htext
    exact onboard_fresh env (ctx.withMail m) st req user t (hauth' m) hrole hwf hemail ht hfresh

theorem mail_failure_never_fails_request_witness :
    postEvents demoEnv (demoCtx.withMail .throws) [] seedStore eventRequest =
      postEvents demoEnv (demoCtx.withMail .resolves) [] seedStore eventRequest ∧
    (postEvents demoEnv (demoCtx.withMail .throws) [] seedStore eventRequest).reply =
      jsonReply (.event (newEvent demoEnv demoCtx chairToken.claims eventRequest)) ∧
    (onboard demoEnv (demoCtx.withMail .rejects) seedStore onboardRequest).reply =
      jsonReply (.onboarded (.str "new@x.org") "member" (tempPasswordOf demoCtx.rand)) :=
  ⟨(mail_failure_never_fails_request demoEnv demoCtx [] seedStore eventRequest
      chairToken.claims .throws rfl rfl).1 .resolves,
   ((mail_failure_never_fails_request demoEnv demoCtx [] seedStore eventRequest
      chairToken.claims .throws rfl rfl).2.2.1 rfl rfl rfl (by decide) (by decide)).1,
   ((mail_failure_never_fails_request demoEnv demoCtx [] seedStore onboardRequest
      chairToken.claims .rejects rfl rfl).2.2.2 rfl rfl ⟨_, rfl⟩ (by decide)).1⟩

/-! ## C12: stored upload names -/

theorem safeChar_digitChar : ∀ d, d < 10 → safeChar (Nat.digitChar d) = true := by
  decide

theorem safeChar_toDigitsCore (fuel : Nat) : ∀ (n : Nat) (ds : List Char),
    (∀ c ∈ ds, safeChar c = true) →
    ∀ c ∈ Nat.toDigitsCore 10 fuel n ds, safeChar c = true := by
  induction fuel with
  | zero => intro n ds hds c hc; exact hds c (by simpa [Nat.toDigitsCore] using hc)
  | succ fuel ih =>
    intro n ds hds c hc
    have hd : safeChar (Nat.digitChar (n % 10)) = true :=
      safeChar_digitChar _ (Nat.mod_lt _ (by decide))
    have hds' : ∀ c ∈ Nat.digitChar (n % 10) :: ds, safeChar c = true := by
      intro c hc
      rcases List.mem_cons.1 hc with h | h
      · rw [h]; exact hd
      · exact hds c h
    simp only [Nat.toDigitsCore] at hc
    split at hc
    · exact hds' c hc
    · exact ih _ _ hds' c hc

/-- The decimal text of a timestamp consists of digits. -/
theorem safeChar_toString_nat (n : Nat) : ∀ c ∈ (toString n).data, safeChar c = true := by
  intro c hc
  have : (toString n).data = Nat.toDigits 10 n := rfl
  rw [this] at hc
  exact safeChar_toDigitsCore _ _ [] (fun c hc => absurd hc (List.not_mem_nil c)) c hc

theorem safeChar_sanitizeChar (c : Char) : ∀ d ∈ sanitizeChar c, safeChar d = true := by
  intro d hd
  unfold sanitizeChar at hd
  split at hd
  · rw [List.mem_singleton.1 hd]; assumption
  · split at hd
    · rw [List.mem_singleton.1 hd]; decide
    · simp only [List.mem_cons, List.mem_singleton, List.not_mem_nil, or_false, or_self] at hd
      rw [hd]; decide

theorem safeChar_sanitize (name : String) : ∀ c ∈ (sanitize name).data, safeChar c = true := by
  intro c hc
  simp only [sanitize, List.mem_flatMap] at hc
  obtain ⟨a, -, ha⟩ := hc
  exact safeChar_sanitizeChar a c ha

theorem storedName_data (timestamp : Nat) (name : String) :
    (storedName timestamp name).data =
      (toString timestamp).data ++ '-' :: (sanitize name).data := by
  simp [storedName, String.data_append]

theorem safeChar_storedName (timestamp : Nat) (name : String) :
    ∀ c ∈ (storedName timestamp name).data, safeChar c = true := by
  intro c hc
  rw [storedName_data, List.mem_append, List.mem_cons] at hc
  rcases hc with h | h | h
  · exact safeChar_toString_nat timestamp c h
  · rw [h]; decide
  · exact safeChar_sanitize name c h

theorem basename_fold (s : List Char) (hs : '/' ∉ s) : ∀ acc : List Char,
    s.foldl (fun acc c => if c == '/' then [] else acc ++ [c]) acc = acc ++ s := by
  induction s with
  | nil => intro acc; simp
  | cons c cs ih =>
    intro acc
    have hc : (c == '/') = false := by
      simp only [beq_eq_false_iff_ne, ne_eq]
      intro h
      exact hs (by rw [h]; exact List.mem_cons_self _ _)
    simp only [List.foldl_cons, hc, Bool.false_eq_true, if_false]
    rw [ih (fun h => hs (List.mem_cons_of_mem _ h))]
    simp

/-- The base name of `dir/name` is `name` when `name` has no slash. -/
theorem basename_join (dir : String) (name : String) (hname : '/' ∉ name.data) :
    basename (dir ++ "/" ++ name) = name := by
  have hdata : (dir ++ "/" ++ name).data = dir.data ++ '/' :: name.data := by
    simp [String.data_append]
  unfold basename
  rw [hdata, List.foldl_append, List.foldl_cons]
  simp only [beq_self_eq_true, if_true]
  rw [basename_fold name.data hname []]
  rfl


theorem sanitizeChar_eq (c : Char) :
    sanitizeChar c = if safeChar c then [c] else List.replicate (utf16Units c) '_' := by
  unfold sanitizeChar utf16Units
  split
  · rfl
  · split <;> rfl

theorem flatMap_replace_basic_plane (cs : List Char) (h : ∀ c ∈ cs, utf16Units c = 1) :
    cs.flatMap (fun c => if safeChar c then [c] else List.replicate (utf16Units c) '_') =
      cs.map (fun c => if safeChar c then c else '_') := by
  induction cs with
  | nil => rfl
  | cons c cs ih =>
    have hc := h c (List.mem_cons_self _ _)
    rw [List.flatMap_cons, List.map_cons, ih (fun d hd => h d (List.mem_cons_of_mem _ hd))]
    by_cases hs : safeChar c = true
    · simp [hs]
    · simp [hs, hc]

/-- C12: for every original file name and every timestamp, the stored upload
name is the decimal timestamp, then `-`, then the original name with each
character outside `[a-zA-Z0-9_.-]` replaced by `_` (a character being a
UTF-16 code unit, as in every JavaScript string: a character beyond the basic
plane counts as two and becomes two underscores; for a name within the basic
plane the replacement is character by character).  Hence the stored name
contains only characters of `[a-zA-Z0-9_.-]`, contains neither `/` nor `\`,
and is neither `.` nor `..`; the file path built from it has the stored name
as its base name, so the file lies directly in the uploads directory. -/
theorem storedName_confined (timestamp : Nat) (name : String) :
    storedName timestamp name = toString timestamp ++ "-" ++
      String.mk (name.data.flatMap
        (fun c => if safeChar c then [c] else List.replicate (utf16Units c) '_')) ∧
    ((∀ c ∈ name.data, utf16Units c = 1) →
      storedName timestamp name = toString timestamp ++ "-" ++
        String.mk (name.data.map (fun c => if safeChar c then c else '_'))) ∧
    (∀ c ∈ (storedName timestamp name).data, safeChar c = true) ∧
    '/' ∉ (storedName timestamp name).data ∧
    '\\' ∉ (storedName timestamp name).data ∧
    storedName timestamp name ≠ "." ∧
    storedName timestamp name ≠ ".." ∧
    (∀ (env : Env) (fieldname : String),
      basename (Upload.path env
        { fieldname := fieldname, originalname := name, storedAt := timestamp }) =
        storedName timestamp name) := by
  have hsafe := safeChar_storedName timestamp name
  have hslash : '/' ∉ (storedName timestamp name).data := fun h =>
    absurd (hsafe _ h) (by decide)
  have hdash : '-' ∈ (storedName timestamp name).data := by
    rw [storedName_data]
    exact List.mem_append_right _ (List.mem_cons_self _ _)
  have hflat : sanitize name = String.mk (name.data.flatMap
      (fun c => if safeChar c then [c] else List.replicate (utf16Units c) '_')) := by
    unfold sanitize
    congr 1
    exact List.flatMap_congr (fun c _ => sanitizeChar_eq c) |>.trans rfl
  refine ⟨by rw [storedName, hflat], ?_, hsafe, hslash, ?_, ?_, ?_, ?_⟩
  · intro hbmp
    rw [storedName, hflat]
    rw [flatMap_replace_basic_plane name.data hbmp]
  · exact fun h => absurd (hsafe _ h) (by decide)
  · intro h
    rw [h] at hdash
    exact absurd hdash (by decide)
  · intro h
    rw [h] at hdash
    exact absurd hdash (by decide)
  · intro env fieldname
    exact basename_join env.uploadsDir (storedName timestamp name) hslash

theorem storedName_confined_witness :
    storedName 1700000000500 "../../etc/passwd" = "1700000000500-.._.._etc_passwd" ∧
    basename (traversalUpload.path demoEnv) = "1700000000500-.._.._etc_passwd" :=
  ⟨(storedName_confined 1700000000500 "../../etc/passwd").2.1 (by decide),
   (storedName_confined 1700000000500 "../../etc/passwd").2.2.2.2.2.2.2 demoEnv "photos"⟩

/-! ## C13: ids assigned from the clock -/

/-- C13: ids assigned from the creation timestamp are not unique.  For every
stored team list and every pair of valid bearer-authorised team-create
requests handled one after the other while the clock returns the same value,
both requests succeed, the stored team list afterwards is the old list
followed by the two new records, and the two records carry the same id, so
the ids of the stored list are not pairwise distinct. -/
theorem team_ids_collide_in_same_millisecond (env : Env) (ctx₁ ctx₂ : Ctx)
    (clients : List Client) (st : Store) (req₁ req₂ : Request) (user₁ user₂ : Claims)
    (hauth₁ : authMiddleware env ctx₁ req₁ = .ok user₁) (hrole₁ : user₁.role = "bearer")
    (hauth₂ : authMiddleware env ctx₂ req₂ = .ok user₂) (hrole₂ : user₂.role = "bearer")
    (hname₁ : req₁.name.truthy = true) (hposition₁ : req₁.position.truthy = true)
    (hname₂ : req₂.name.truthy = true) (hposition₂ : req₂.position.truthy = true)
    (hclock : ctx₁.now = ctx₂.now) :
    (postTeam env ctx₁ clients st req₁).reply = jsonReply (.member (newMember ctx₁ req₁)) ∧
    (postTeam env ctx₂ clients (postTeam env ctx₁ clients st req₁).store req₂).reply =
      jsonReply (.member (newMember ctx₂ req₂)) ∧
    (postTeam env ctx₂ clients (postTeam env ctx₁ clients st req₁).store req₂).store.team =
      st.team ++ [newMember ctx₁ req₁, newMember ctx₂ req₂] ∧
    (newMember ctx₁ req₁).id = (newMember ctx₂ req₂).id ∧
    ¬ ((postTeam env ctx₂ clients (postTeam env ctx₁ clients st req₁).store req₂).store.team.map
        (fun t => t.id)).Nodup := by
  obtain ⟨hreply₁, hstore₁⟩ :=
    postTeam_success env ctx₁ clients st req₁ user₁ hauth₁ hrole₁ hname₁ hposition₁
  obtain ⟨hreply₂, hstore₂⟩ :=
    postTeam_success env ctx₂ clients (postTeam env ctx₁ clients st req₁).store req₂ user₂
      hauth₂ hrole₂ hname₂ hposition₂
  have hteam : (postTeam env ctx₂ clients (postTeam env ctx₁ clients st req₁).store
      req₂).store.team = st.team ++ [newMember ctx₁ req₁, newMember ctx₂ req₂] := by
    rw [hstore₂, hstore₁]
    simp
  have hid : (newMember ctx₁ req₁).id = (newMember ctx₂ req₂).id := hclock
  refine ⟨hreply₁, hreply₂, hteam, hid, ?_⟩
  rw [hteam, List.map_append, List.nodup_append]
  rintro ⟨-, h, -⟩
  simp [hid] at h

theorem team_ids_collide_in_same_millisecond_witness :
    (postTeam demoEnv demoCtx [] seedStore teamRequest).reply.status = 200 ∧
    (postTeam demoEnv demoCtx [] (postTeam demoEnv demoCtx [] seedStore teamRequest).store
      teamRequest).reply.status = 200 ∧
    (postTeam demoEnv demoCtx [] (postTeam demoEnv demoCtx [] seedStore teamRequest).store
      teamRequest).store.team.map (fun t => t.id) = [1700000001000, 1700000001000] :=
  ⟨congrArg Reply.status (team_ids_collide_in_same_millisecond demoEnv demoCtx demoCtx []
      seedStore teamRequest teamRequest chairToken.claims chairToken.claims rfl rfl rfl rfl
      rfl rfl rfl rfl rfl).1,
   congrArg Reply.status (team_ids_collide_in_same_millisecond demoEnv demoCtx demoCtx []
      seedStore teamRequest teamRequest chairToken.claims chairToken.claims rfl rfl rfl rfl
      rfl rfl rfl rfl rfl).2.1,
   congrArg (List.map (fun t => t.id)) (team_ids_collide_in_same_millisecond demoEnv demoCtx
      demoCtx [] seedStore teamRequest teamRequest chairToken.claims chairToken.claims rfl rfl
      rfl rfl rfl rfl rfl rfl rfl).2.2.1⟩

/-! ## C14: update and delete touch one record -/

/-- The index found by `findIndex` holds a record satisfying the predicate,
and no earlier record satisfies it. -/
theorem findIndex_some {α : Type} (p : α → Bool) (l : List α) (i : Nat)
    (h : findIndex p l = some i) :
    ∃ x, l.get? i = some x ∧ p x = true ∧ ∀ j < i, ∀ y, l.get? j = some y → p y = false := by
  induction l generalizing i with
  | nil => simp [findIndex] at h
  | cons a as ih =>
    rw [findIndex] at h
    by_cases ha : p a = true
    · simp only [ha, if_true, Option.some.injEq] at h
      subst h
      exact ⟨a, rfl, ha, fun j hj => absurd hj (Nat.not_lt_zero j)⟩
    · simp only [ha, Bool.false_eq_true, if_false, Option.map_eq_some'] at h
      obtain ⟨k, hk, rfl⟩ := h
      obtain ⟨x, hx, hpx, hfirst⟩ := ih k hk
      refine ⟨x, by simpa using hx, hpx, ?_⟩
      intro j hj y hy
      cases j with
      | zero =>
        simp only [List.get?_cons_zero, Option.some.injEq] at hy
        rw [← hy]
        simpa using ha
      | succ j => exact hfirst j (Nat.lt_of_succ_lt_succ hj) y (by simpa using hy)

/-- When some record satisfies the predicate, `findIndex` finds an index. -/
theorem findIndex_of_exists {α : Type} (p : α → Bool) (l : List α)
    (h : ∃ x ∈ l, p x = true) : ∃ i, findIndex p l = some i := by
  induction l with
  | nil => obtain ⟨x, hx, -⟩ := h; exact absurd hx (List.not_mem_nil x)
  | cons a as ih =>
    rw [findIndex]
    by_cases ha : p a = true
    · exact ⟨0, by simp [ha]⟩
    · obtain ⟨x, hx, hpx⟩ := h
      rcases List.mem_cons.1 hx with h1 | h1
      · rw [h1] at hpx; exact absurd hpx ha
      · obtain ⟨i, hi⟩ := ih ⟨x, h1, hpx⟩
        exact ⟨i + 1, by simp [ha, hi]⟩

theorem idMatches_iff (id : Option Int) (t : TeamMember) :
    idMatches id t = true ↔ id = some (t.id : Int) := by
  simp [idMatches]


/-- The outcome of `PUT /api/team/:id` when `findIndex` finds the record. -/
theorem putTeam_found (env : Env) (ctx : Ctx) (clients : List Client) (st : Store)
    (req : Request) (user : Claims) (idx : Nat) (old : TeamMember)
    (hauth : authMiddleware env ctx req = .ok user) (hrole : user.role = "bearer")
    (hfind : findIndex (idMatches (env.toNumber req.idParam)) st.team = some idx)
    (hget : st.team.get? idx = some old) :
    putTeam env ctx clients st req =
      { store := { st with team := st.team.set idx (mergeMember old req) },
        reply := jsonReply (.member (mergeMember old req)),
        effects := { broadcasts := [("team:update", .member (mergeMember old req))],
                     delivered := broadcast env clients "team:update"
                       (.member (mergeMember old req)) } } := by
  rw [putTeam, bearerOnly_of_bearer env ctx st req _ user hauth hrole]
  simp only [hfind, hget]

/-- The outcome of `DELETE /api/team/:id` when `findIndex` finds the record. -/
theorem deleteTeam_found (env : Env) (ctx : Ctx) (clients : List Client) (st : Store)
    (req : Request) (user : Claims) (idx : Nat) (old : TeamMember)
    (hauth : authMiddleware env ctx req = .ok user) (hrole : user.role = "bearer")
    (hfind : findIndex (idMatches (env.toNumber req.idParam)) st.team = some idx)
    (hget : st.team.get? idx = some old) :
    deleteTeam env ctx clients st req =
      { store := { st with team := st.team.eraseIdx idx },
        reply := jsonReply (.removed old),
        effects := { broadcasts := [("team:update", .removedId (env.toNumber req.idParam))],
                     delivered := broadcast env clients "team:update"
                       (.removedId (env.toNumber req.idParam)) } } := by
  rw [deleteTeam, bearerOnly_of_bearer env ctx st req _ user hauth hrole]
  simp only [hfind, hget]

/-- C14: team update and delete by id touch only the first stored record
whose numeric id equals the given id.  For every bearer-authorised request
whose id equals the id of some stored record there are an index `idx` and a
record `old` such that `old` is stored at `idx`, carries the given id, and no
earlier record does.  `PUT /api/team/:id` then stores the list with `old`
replaced at `idx` by the merged record: the length is kept, the id is kept,
each of name, position, department and email is the supplied value when that
is truthy and the stored value otherwise, every other position holds what it
held, the merged record is broadcast and returned.
`DELETE /api/team/:id` stores the list without position `idx`, all other
records in their order, and returns `old`. -/
theorem team_update_delete_touch_one_record (env : Env) (ctx : Ctx) (clients : List Client)
    (st : Store) (req : Request) (user : Claims)
    (hauth : authMiddleware env ctx req = .ok user) (hrole : user.role = "bearer")
    (hex : ∃ t ∈ st.team, env.toNumber req.idParam = some (t.id : Int)) :
    ∃ (idx : Nat) (old : TeamMember),
      st.team.get? idx = some old ∧
      env.toNumber req.idParam = some (old.id : Int) ∧
      (∀ j < idx, ∀ t, st.team.get? j = some t →
        env.toNumber req.idParam ≠ some (t.id : Int)) ∧
      ((putTeam env ctx clients st req).store =
          { st with team := st.team.set idx (mergeMember old req) } ∧
        (putTeam env ctx clients st req).store.team.length = st.team.length ∧
        (putTeam env ctx clients st req).store.team.get? idx = some (mergeMember old req) ∧
        (∀ j, j ≠ idx →
          (putTeam env ctx clients st req).store.team.get? j = st.team.get? j) ∧
        (mergeMember old req).id = old.id ∧
        (req.name.truthy = true → (mergeMember old req).name = req.name) ∧
        (req.name.truthy = false → (mergeMember old req).name = old.name) ∧
        (req.position.truthy = true → (mergeMember old req).position = req.position) ∧
        (req.position.truthy = false → (mergeMember old req).position = old.position) ∧
        (req.department.truthy = true → (mergeMember old req).department = req.department) ∧
        (req.department.truthy = false → (mergeMember old req).department = old.department) ∧
        (req.email.truthy = true → (mergeMember old req).email = req.email) ∧
        (req.email.truthy = false → (mergeMember old req).email = old.email) ∧
        (putTeam env ctx clients st req).effects.broadcasts =
          [("team:update", .member (mergeMember old req))] ∧
        (putTeam env ctx clients st req).reply = jsonReply (.member (mergeMember old req))) ∧
      ((deleteTeam env ctx clients st req).store =
          { st with team := st.team.eraseIdx idx } ∧
        (deleteTeam env ctx clients st req).store.team =
          st.team.take idx ++ st.team.drop (idx + 1) ∧
        (deleteTeam env ctx clients st req).store.team.length + 1 = st.team.length ∧
        (deleteTeam env ctx clients st req).effects.broadcasts =
          [("team:update", .removedId (some (old.id : Int)))] ∧
        (deleteTeam env ctx clients st req).reply = jsonReply (.removed old)) := by
  obtain ⟨idx, hfind⟩ := findIndex_of_exists (idMatches (env.toNumber req.idParam)) st.team
    (by obtain ⟨t, ht, hid⟩ := hex; exact ⟨t, ht, (idMatches_iff _ _).2 hid⟩)
  obtain ⟨old, hget, hmatch, hfirst⟩ := findIndex_some _ _ _ hfind
  have hid := (idMatches_iff _ _).1 hmatch
  have hlt : idx < st.team.length := by
    rcases Nat.lt_or_ge idx st.team.length with h | h
    · exact h
    · rw [List.get?_eq_none.2 h] at hget; exact absurd hget (by simp)
  have hput := putTeam_found env ctx clients st req user idx old hauth hrole hfind hget
  have hdel := deleteTeam_found env ctx clients st req user idx old hauth hrole hfind hget
  refine ⟨idx, old, hget, hid, ?_, ?_, ?_⟩
  · intro j hj t ht hcontra
    have := hfirst j hj t ht
    rw [(idMatches_iff _ _).2 hcontra] at this
    exact absurd this (by decide)
  · rw [hput]
    refine ⟨rfl, by simp, ?_, ?_, rfl, ?_, ?_, ?_, ?_, ?_, ?_, ?_, ?_, rfl, rfl⟩
    · simp [List.get?_eq_getElem?, List.getElem?_set, hlt]
    · intro j hj
      simp [List.get?_eq_getElem?, List.getElem?_set, Ne.symm hj]
    · intro h; simp [mergeMember, h]
    · intro h; simp [mergeMember, h]
    · intro h; simp [mergeMember, h]
    · intro h; simp [mergeMember, h]
    · intro h; simp [mergeMember, h]
    · intro h; simp [mergeMember, h]
    · intro h; simp [mergeMember, h]
    · intro h; simp [mergeMember, h]
  · rw [hdel]
    refine ⟨rfl, ?_, ?_, by rw [hid], rfl⟩
    · exact List.eraseIdx_eq_take_drop_succ _ _
    · simp only [List.length_eraseIdx, hlt, if_true]
      omega

theorem team_update_delete_touch_one_record_witness :
    (putTeam demoEnv demoCtx [] duplicateStore renameRequest).store.team.map (fun t => t.id) =
      [7, 9, 9] ∧
    (putTeam demoEnv demoCtx [] duplicateStore renameRequest).store.team.map
      (fun t => t.name.toStr demoEnv.numberText) =
      [.ok "Asha", .ok "Ravi Kumar", .ok "Kiran"] ∧
    (putTeam demoEnv demoCtx [] duplicateStore renameRequest).store.team.map
      (fun t => t.position.toStr demoEnv.numberText) =
      [.ok "Chair", .ok "Secretary", .ok "Treasurer"] ∧
    (deleteTeam demoEnv demoCtx [] duplicateStore renameRequest).store.team.map
      (fun t => t.name.toStr demoEnv.numberText) = [.ok "Asha", .ok "Kiran"] ∧
    ∃ (idx : Nat) (old : TeamMember), duplicateTeam.get? idx = some old ∧
      (deleteTeam demoEnv demoCtx [] duplicateStore renameRequest).reply =
        jsonReply (.removed old) :=
  ⟨rfl, rfl, rfl, rfl,
   (team_update_delete_touch_one_record demoEnv demoCtx [] duplicateStore renameRequest
      chairToken.claims rfl rfl ⟨_, List.mem_cons_of_mem _ (List.mem_cons_self _ _), rfl⟩).elim
      (fun idx h => h.elim (fun old h' => ⟨idx, old, h'.1, h'.2.2.2.2.2.2.2.2⟩))⟩

end Server
